import Mathlib

/-
Shallow embedding of the storage-layer control plane implemented in
src/qemu/qemu_block.c: storage-chain node resolution, backend property
builders, the staged attach/rollback transaction engine, the pivot step of
the block-job state machine and the dirty-bitmap validity / merge planner.
Property bags built through the virJSONValue typed key builder are modelled
as typed records; a field of type Option is absent exactly when the C code
omits the key (S:/T:/P:/p: omission semantics of virJSONValueObjectAddVArgs
in src/util/virjson.c).
-/

/-- Tristate boolean, `virTristateBool`: `T:` keys are omitted on `absent`. -/
inductive VirTristateBool
  | absent
  | yes
  | no
  deriving DecidableEq, Repr

/-- Model of `virTristateBoolFromBool`. -/
def virTristateBoolFromBool (b : Bool) : VirTristateBool :=
  if b then .yes else .no

/-- Resolved actual type of a storage source (`virStorageType`), as returned
by `virStorageSourceGetActualType`. -/
inductive VirStorageType
  | file
  | block
  | dir
  | network
  | volume
  | nvme
  | vhostUser
  | vhostVdpa
  deriving DecidableEq, Repr

/-- Network protocol of a storage source (`virStorageNetProtocol`). -/
inductive VirStorageNetProtocol
  | gluster
  | http
  | https
  | ftp
  | ftps
  | tftp
  | iscsi
  | nbd
  | rbd
  | ssh
  | nfs
  | vxhs
  | sheepdog
  deriving DecidableEq, Repr

/-- Transport of one network host entry (`virStorageNetHostTransport`). -/
inductive VirStorageNetHostTransport
  | tcp
  | unixSock
  | rdma
  | fdTrans
  deriving DecidableEq, Repr

/-- One network host entry (`virStorageNetHostDef`). The `ipv6` field models
the external check `virSocketAddrNumericFamily(name) == AF_INET6` as data. -/
structure VirStorageNetHostDef where
  name : String
  port : Nat
  transport : VirStorageNetHostTransport
  socket : Option String
  ipv6 : Bool
  deriving DecidableEq, Repr

/-- Authentication descriptor (`virStorageAuthDef`), only the field read by
qemu_block.c. -/
structure VirStorageAuthDef where
  username : String
  deriving DecidableEq, Repr

/-- Storage slice (`virStorageSourceSlice`). -/
structure VirStorageSourceSlice where
  nodename : Option String
  offset : Nat
  size : Nat
  deriving DecidableEq, Repr

/-- FD tuple passed by the caller (`virStorageSourceFDTuple`), the two fields
read by `qemuBlockStorageSourceAddBlockdevCommonProps`. -/
structure VirStorageSourceFDTuple where
  nfds : Nat
  writable : Bool
  deriving DecidableEq, Repr

/-- Disk discard mode (`virDomainDiskDiscard`). -/
inductive VirDomainDiskDiscard
  | default
  | ignore
  | unmap
  deriving DecidableEq, Repr

/-- Disk detect-zeroes mode (`virDomainDiskDetectZeroes`). -/
inductive VirDomainDiskDetectZeroes
  | default
  | off
  | on
  | unmap
  deriving DecidableEq, Repr

/-- String table of `virDomainDiskDiscardTypeToString` (config collaborator
outside qemu_block.c). -/
def virDomainDiskDiscardTypeToString : VirDomainDiskDiscard → String
  | .default => "default"
  | .ignore => "ignore"
  | .unmap => "unmap"

/-- String table of `virDomainDiskDetectZeroesTypeToString`. -/
def virDomainDiskDetectZeroesTypeToString : VirDomainDiskDetectZeroes → String
  | .default => "default"
  | .off => "off"
  | .on => "on"
  | .unmap => "unmap"

/-- Modelled from the spec: `virDomainDiskGetDetectZeroesMode` lives in the
domain-config collaborator (src/conf, not under src/ here); the spec only
states that the effective layer uses the user-requested detect-zeroes
policy, so the helper is modelled as returning the user-requested mode. -/
def virDomainDiskGetDetectZeroesMode (_discard : VirDomainDiskDiscard)
    (detect_zeroes : VirDomainDiskDetectZeroes) : VirDomainDiskDetectZeroes :=
  detect_zeroes

/-- Per-source private data (`qemuDomainStorageSourcePrivate`), restricted to
the fields read by the builders modelled here. -/
structure QemuDomainStorageSourcePrivate where
  secinfoAlias : Option String
  httpcookieAlias : Option String
  tlsKeySecretAlias : Option String
  deriving DecidableEq, Repr

/-- One layer of a storage chain (`virStorageSource`), restricted to the
fields read by the functions of qemu_block.c modelled in this file. The
`stype` field holds the already-resolved actual type and `cacheFlags` the
direct/no-flush pair resolved by the external `qemuDomainDiskCachemodeFlags`
helper (`none` when the cache mode yields no cache props). -/
structure VirStorageSource where
  stype : VirStorageType
  protocol : VirStorageNetProtocol
  path : Option String
  query : Option String
  hosts : List VirStorageNetHostDef
  readonly : Bool
  auth : Option VirStorageAuthDef
  sslverify : VirTristateBool
  timeout : Nat
  readahead : Nat
  cookies : List (String × String)
  tlsAlias : Option String
  tlsHostname : Option String
  reconnectDelay : Nat
  initiatorIqn : Option String
  sshUser : Option String
  sshHostKeyCheckDisabled : Bool
  sliceStorage : Option VirStorageSourceSlice
  nodenamestorage : Option String
  nodenameformat : Option String
  fdtuple : Option VirStorageSourceFDTuple
  discard : VirDomainDiskDiscard
  detect_zeroes : VirDomainDiskDetectZeroes
  cacheFlags : Option (Bool × Bool)
  priv : Option QemuDomainStorageSourcePrivate
  deriving DecidableEq, Repr

/-- Model of `qemuBlockStorageSourceGetSliceNodename` (qemu_block.c:114). -/
def qemuBlockStorageSourceGetSliceNodename (src : VirStorageSource) : Option String :=
  match src.sliceStorage with
  | none => none
  | some slice => slice.nodename

/-- Model of `qemuBlockStorageSourceGetEffectiveStorageNodename`
(qemu_block.c:131): the slice nodename when there is one, else the storage
nodename. -/
def qemuBlockStorageSourceGetEffectiveStorageNodename (src : VirStorageSource) :
    Option String :=
  match qemuBlockStorageSourceGetSliceNodename src with
  | some slice => some slice
  | none => src.nodenamestorage

/-- Model of `qemuBlockStorageSourceGetEffectiveNodename` (qemu_block.c:98):
the format nodename when there is one, else the effective storage nodename. -/
def qemuBlockStorageSourceGetEffectiveNodename (src : VirStorageSource) :
    Option String :=
  match src.nodenameformat with
  | some f => some f
  | none => qemuBlockStorageSourceGetEffectiveStorageNodename src

/-- Model of `qemuBlockStorageSourceGetStorageNodename` (qemu_block.c:149). -/
def qemuBlockStorageSourceGetStorageNodename (src : VirStorageSource) : Option String :=
  src.nodenamestorage

/-- Model of `qemuBlockStorageSourceGetFormatNodename` (qemu_block.c:163). -/
def qemuBlockStorageSourceGetFormatNodename (src : VirStorageSource) : Option String :=
  src.nodenameformat

/-- Spec-side definition of the effective node, following the spec words:
format node if present, else slice node if present, else storage node. -/
def specEffectiveNode (src : VirStorageSource) : Option String :=
  match src.nodenameformat with
  | some f => some f
  | none =>
    match qemuBlockStorageSourceGetSliceNodename src with
    | some s => some s
    | none => src.nodenamestorage

/-- Spec-side definition of the effective storage node: slice node if
present, else storage node. -/
def specEffectiveStorageNode (src : VirStorageSource) : Option String :=
  match qemuBlockStorageSourceGetSliceNodename src with
  | some s => some s
  | none => src.nodenamestorage

/-- A layer is fully initialized once its storage nodename has been
assigned (the storage node is the one sub-object every layer has). -/
def fullyInitializedLayer (src : VirStorageSource) : Prop :=
  src.nodenamestorage.isSome

instance (src : VirStorageSource) : Decidable (fullyInitializedLayer src) := by
  unfold fullyInitializedLayer
  infer_instance

/-- C5: the effective node is the format node if present, else the slice
node if present, else the storage node; the effective storage node is the
slice node if present, else the storage node; both resolve to a name for
every fully-initialized layer. -/
theorem c5_effective_node_resolution (src : VirStorageSource) :
    qemuBlockStorageSourceGetEffectiveNodename src = specEffectiveNode src
    ∧ qemuBlockStorageSourceGetEffectiveStorageNodename src = specEffectiveStorageNode src
    ∧ (fullyInitializedLayer src →
        (qemuBlockStorageSourceGetEffectiveNodename src).isSome
        ∧ (qemuBlockStorageSourceGetEffectiveStorageNodename src).isSome) := by
  refine ⟨rfl, rfl, ?_⟩
  intro h
  unfold fullyInitializedLayer at h
  have hstor : (qemuBlockStorageSourceGetEffectiveStorageNodename src).isSome := by
    unfold qemuBlockStorageSourceGetEffectiveStorageNodename
    rcases hs : qemuBlockStorageSourceGetSliceNodename src with _ | s
    · simpa using h
    · simp
  refine ⟨?_, hstor⟩
  unfold qemuBlockStorageSourceGetEffectiveNodename
  rcases hf : src.nodenameformat with _ | f
  · exact hstor
  · simp

/-- Example layer used by witnesses: a plain local raw file layer. -/
def sampleFileSource : VirStorageSource where
  stype := .file
  protocol := .nbd
  path := some "/tmp/disk.img"
  query := none
  hosts := []
  readonly := false
  auth := none
  sslverify := .absent
  timeout := 0
  readahead := 0
  cookies := []
  tlsAlias := none
  tlsHostname := none
  reconnectDelay := 0
  initiatorIqn := none
  sshUser := none
  sshHostKeyCheckDisabled := false
  sliceStorage := none
  nodenamestorage := some "libvirt-1-storage"
  nodenameformat := some "libvirt-1-format"
  fdtuple := none
  discard := .default
  detect_zeroes := .default
  cacheFlags := none
  priv := none

/-- Witness for C5 at a concrete fully-initialized layer. -/
theorem c5_effective_node_resolution_witness :
    (qemuBlockStorageSourceGetEffectiveNodename sampleFileSource).isSome
    ∧ qemuBlockStorageSourceGetEffectiveNodename sampleFileSource
        = specEffectiveNode sampleFileSource :=
  ⟨((c5_effective_node_resolution sampleFileSource).2.2 (by decide)).1,
   (c5_effective_node_resolution sampleFileSource).1⟩

/-- The qemu node-name buffer size (qemu_block.c:39): qemu declares the
buffer for node names as a 32 byte array. -/
def qemuBlockNodeNameBufSize : Nat := 32

/-- Model of `qemuBlockNodeNameValidate` (qemu_block.c:41): a missing name
passes, a name whose byte length reaches the buffer size is rejected. -/
def qemuBlockNodeNameValidate (nn : Option String) : Bool :=
  match nn with
  | none => true
  | some s => decide (s.utf8ByteSize < qemuBlockNodeNameBufSize)

/-- The record of keys appended by
`qemuBlockStorageSourceAddBlockdevCommonProps` (qemu_block.c:908); an
`Option`/tristate field is `none`/`absent` when the key is omitted. -/
structure BlockdevCommonProps where
  nodeName : Option String
  readOnly : VirTristateBool
  autoReadOnly : VirTristateBool
  discard : Option String
  detectZeroes : Option String
  cache : Option (Bool × Bool)
  deriving DecidableEq, Repr

/-- Model of `qemuBlockStorageSourceGetBlockdevGetCacheProps`
(qemu_block.c:875); the cache-mode resolution itself is the external
`qemuDomainDiskCachemodeFlags`, carried as resolved data on the source. -/
def qemuBlockStorageSourceGetBlockdevGetCacheProps (src : VirStorageSource) :
    Option (Bool × Bool) :=
  src.cacheFlags

/-- Model of `qemuBlockStorageSourceAddBlockdevCommonProps`
(qemu_block.c:908): validates the nodename, then fills the common keys with
defaults depending on whether the props are for the effective (guest-facing)
layer or an internal one. Returns `none` when the nodename is rejected. -/
def qemuBlockStorageSourceAddBlockdevCommonProps (src : VirStorageSource)
    (nodename : Option String) (effective : Bool) : Option BlockdevCommonProps :=
  if !qemuBlockNodeNameValidate nodename then
    none
  else
    let cache := qemuBlockStorageSourceGetBlockdevGetCacheProps src
    if effective then
      let dz := virDomainDiskGetDetectZeroesMode src.discard src.detect_zeroes
      some
        { nodeName := nodename
          readOnly := virTristateBoolFromBool src.readonly
          autoReadOnly := .absent
          discard :=
            if src.discard ≠ .default then
              some (virDomainDiskDiscardTypeToString src.discard)
            else none
          detectZeroes :=
            if dz ≠ .default then
              some (virDomainDiskDetectZeroesTypeToString dz)
            else none
          cache := cache }
    else
      let aroRo : VirTristateBool × VirTristateBool :=
        match src.fdtuple with
        | some fdt =>
          if (src.stype = .file ∨ src.stype = .block) ∧ fdt.nfds = 1 then
            (.absent,
             if fdt.writable then VirTristateBool.no
             else virTristateBoolFromBool src.readonly)
          else (.yes, .absent)
        | none => (.yes, .absent)
      some
        { nodeName := nodename
          readOnly := aroRo.2
          autoReadOnly := aroRo.1
          discard := some "unmap"
          detectZeroes := none
          cache := cache }

/-- C10: a node name whose byte length reaches the 32-byte qemu buffer size
is rejected before any common prop is appended, so no property bag naming
such a node is produced; a missing node name passes the validation. -/
theorem c10_node_name_length_validation (src : VirStorageSource) (s : String)
    (effective : Bool) (h : qemuBlockNodeNameBufSize ≤ s.utf8ByteSize) :
    qemuBlockStorageSourceAddBlockdevCommonProps src (some s) effective = none
    ∧ qemuBlockNodeNameValidate (some s) = false
    ∧ qemuBlockNodeNameValidate none = true := by
  have hv : qemuBlockNodeNameValidate (some s) = false := by
    unfold qemuBlockNodeNameValidate
    simpa using Nat.not_lt.mpr h
  refine ⟨?_, hv, rfl⟩
  unfold qemuBlockStorageSourceAddBlockdevCommonProps
  rw [hv]
  rfl

/-- Witness for C10 at a concrete 32-byte node name. -/
theorem c10_node_name_length_validation_witness :
    qemuBlockNodeNameBufSize ≤ "abcdefgh-abcdefgh-abcdefgh-abcde".utf8ByteSize
    ∧ qemuBlockStorageSourceAddBlockdevCommonProps sampleFileSource
        (some "abcdefgh-abcdefgh-abcdefgh-abcde") true = none :=
  ⟨by decide,
   (c10_node_name_length_validation sampleFileSource
     "abcdefgh-abcdefgh-abcdefgh-abcde" true (by decide)).1⟩

/-- Internal layer whose caller supplied exactly one read-only (non-writable)
file descriptor. -/
def oneReadOnlyFdSource : VirStorageSource :=
  { sampleFileSource with
      readonly := false
      fdtuple := some { nfds := 1, writable := false } }

/-- Counterexample for C6 as stated: the caller supplied exactly one file
descriptor that is NOT writable, so the claim says auto-read-only keeps its
internal-layer default (enabled); the code nevertheless suppresses
auto-read-only (key omitted) and decides read-only explicitly. -/
theorem c6_counterexample :
    oneReadOnlyFdSource.fdtuple = some { nfds := 1, writable := false }
    ∧ (qemuBlockStorageSourceAddBlockdevCommonProps oneReadOnlyFdSource
        (some "libvirt-1-storage") false).map (fun p => p.autoReadOnly)
        = some VirTristateBool.absent
    ∧ some VirTristateBool.absent ≠ some VirTristateBool.yes := by
  refine ⟨rfl, ?_, by decide⟩
  decide

/-- C6 (amended): for an internal layer, discard defaults to "unmap" and
auto-read-only to enabled, except that when the source is a local file or
block device and the caller supplied exactly one file descriptor (writable
or not), auto-read-only is suppressed and read-only is set explicitly:
forced off for a writable descriptor, else taken from the source's read-only
flag. For the effective layer, read-only comes from the source's read-only
flag and the user-requested discard/detect-zeroes policies are used. -/
theorem c6_common_props_defaults (src : VirStorageSource) (nodename : Option String)
    (hv : qemuBlockNodeNameValidate nodename = true) :
    (∀ p, qemuBlockStorageSourceAddBlockdevCommonProps src nodename false = some p →
       p.discard = some "unmap"
       ∧ p.detectZeroes = none
       ∧ (match src.fdtuple with
          | some fdt =>
            if (src.stype = .file ∨ src.stype = .block) ∧ fdt.nfds = 1 then
              p.autoReadOnly = .absent
              ∧ p.readOnly =
                  (if fdt.writable then VirTristateBool.no
                   else virTristateBoolFromBool src.readonly)
            else p.autoReadOnly = .yes ∧ p.readOnly = .absent
          | none => p.autoReadOnly = .yes ∧ p.readOnly = .absent))
    ∧ (∀ p, qemuBlockStorageSourceAddBlockdevCommonProps src nodename true = some p →
       p.readOnly = virTristateBoolFromBool src.readonly
       ∧ p.autoReadOnly = .absent
       ∧ p.discard =
           (if src.discard ≠ .default then
             some (virDomainDiskDiscardTypeToString src.discard)
            else none)
       ∧ p.detectZeroes =
           (if virDomainDiskGetDetectZeroesMode src.discard src.detect_zeroes ≠ .default
            then some (virDomainDiskDetectZeroesTypeToString
                (virDomainDiskGetDetectZeroesMode src.discard src.detect_zeroes))
            else none)) := by
  constructor
  · intro p hp
    unfold qemuBlockStorageSourceAddBlockdevCommonProps at hp
    rw [hv] at hp
    simp only [Bool.not_true, Bool.false_eq_true, if_false, if_true, reduceIte] at hp
    rcases hfd : src.fdtuple with _ | fdt
    · rw [hfd] at hp
      simp only at hp
      cases Option.some.inj hp
      simp [hfd]
    · rw [hfd] at hp
      simp only at hp
      by_cases hc : (src.stype = .file ∨ src.stype = .block) ∧ fdt.nfds = 1
      · rw [if_pos hc] at hp
        cases Option.some.inj hp
        simp [hfd, if_pos hc]
      · rw [if_neg hc] at hp
        cases Option.some.inj hp
        simp [hfd, if_neg hc]
  · intro p hp
    unfold qemuBlockStorageSourceAddBlockdevCommonProps at hp
    rw [hv] at hp
    simp only [Bool.not_true, Bool.false_eq_true, if_false, if_true, reduceIte] at hp
    cases Option.some.inj hp
    exact ⟨rfl, rfl, rfl, rfl⟩

/-- Witness for C6 (amended) at a concrete internal layer with one
non-writable descriptor. -/
theorem c6_common_props_defaults_witness :
    qemuBlockNodeNameValidate (some "libvirt-1-storage") = true
    ∧ ∀ p, qemuBlockStorageSourceAddBlockdevCommonProps oneReadOnlyFdSource
          (some "libvirt-1-storage") false = some p →
        p.discard = some "unmap" := by
  refine ⟨by decide, fun p hp => ?_⟩
  exact ((c6_common_props_defaults oneReadOnlyFdSource
    (some "libvirt-1-storage") (by decide)).1 p hp).1

/-- String table of `virStorageNetProtocolTypeToString` (util collaborator). -/
def virStorageNetProtocolTypeToString : VirStorageNetProtocol → String
  | .gluster => "gluster"
  | .http => "http"
  | .https => "https"
  | .ftp => "ftp"
  | .ftps => "ftps"
  | .tftp => "tftp"
  | .iscsi => "iscsi"
  | .nbd => "nbd"
  | .rbd => "rbd"
  | .ssh => "ssh"
  | .nfs => "nfs"
  | .vxhs => "vxhs"
  | .sheepdog => "sheepdog"

/-- String table of `virStorageNetHostTransportTypeToString`. -/
def virStorageNetHostTransportTypeToString : VirStorageNetHostTransport → String
  | .tcp => "tcp"
  | .unixSock => "unix"
  | .rdma => "rdma"
  | .fdTrans => "fd"

/-- Structured URI (`virURI`) as filled by `qemuBlockStorageSourceGetURI`;
the external `virURIFormat` renders it, so the record itself carries every
identity datum of the target. -/
structure VirURI where
  scheme : String
  server : String
  port : Nat
  path : Option String
  query : Option String
  deriving DecidableEq, Repr

/-- Model of `qemuBlockStorageSourceGetURI` (qemu_block.c:191): exactly one
host is required; tcp transport keeps the port and the plain protocol
scheme, other transports append the transport to the scheme; a relative
path gets a leading slash. -/
def qemuBlockStorageSourceGetURI (src : VirStorageSource) : Option VirURI :=
  match src.hosts with
  | [host] =>
    some
      { scheme :=
          if host.transport = .tcp then
            virStorageNetProtocolTypeToString src.protocol
          else
            virStorageNetProtocolTypeToString src.protocol ++ "+"
              ++ virStorageNetHostTransportTypeToString host.transport
        server := host.name
        port := if host.transport = .tcp then host.port else 0
        path := src.path.map (fun p => if p.startsWith "/" then p else "/" ++ p)
        query := src.query }
  | _ => none

/-- A qemu SocketAddress as built by
`qemuBlockStorageSourceBuildJSONSocketAddress` (qemu_block.c:238). -/
inductive QemuSocketAddress
  | inet (host : String) (port : String)
  | unixSock (path : String)
  deriving DecidableEq, Repr

/-- Model of `qemuBlockStorageSourceBuildJSONSocketAddress`: tcp yields an
inet address with the stringified port, unix yields the socket path (the
`s:path` key rejects a missing socket), other transports are errors. -/
def qemuBlockStorageSourceBuildJSONSocketAddress (host : VirStorageNetHostDef) :
    Option QemuSocketAddress :=
  match host.transport with
  | .tcp => some (.inet host.name (toString host.port))
  | .unixSock =>
    match host.socket with
    | some s => some (.unixSock s)
    | none => none
  | .rdma => none
  | .fdTrans => none

/-- Model of `qemuBlockStorageSourceBuildJSONInetSocketAddress`
(qemu_block.c:317): only tcp converts, yielding host and stringified port. -/
def qemuBlockStorageSourceBuildJSONInetSocketAddress (host : VirStorageNetHostDef) :
    Option (String × String) :=
  if host.transport ≠ .tcp then none
  else some (host.name, toString host.port)

/-- Model of `qemuBlockStorageSourceGetCookieString` (qemu_block.c:3517):
cookies are rendered "name=value" joined by "; "; with no cookies the
buffer is empty and the C function returns NULL. -/
def qemuBlockStorageSourceGetCookieString (src : VirStorageSource) : Option String :=
  match src.cookies with
  | [] => none
  | _ =>
    some (String.intercalate "; " (src.cookies.map (fun c => c.1 ++ "=" ++ c.2)))

/-- Property bag of `qemuBlockStorageSourceGetCURLProps` (qemu_block.c:466). -/
structure CurlProps where
  url : VirURI
  username : Option String
  passwordSecret : Option String
  sslverify : VirTristateBool
  cookie : Option String
  cookieSecret : Option String
  timeout : Option Nat
  readahead : Option Nat
  deriving DecidableEq, Repr

/-- Model of `qemuBlockStorageSourceGetCURLProps`: the URI is built either
way; credentials (username, password secret alias, cookie secret alias) are
filled only when `onlytarget` is false, while `onlytarget` renders the plain
cookie string instead. `P:` keys timeout/readahead are omitted when zero. -/
def qemuBlockStorageSourceGetCURLProps (src : VirStorageSource) (onlytarget : Bool) :
    Option CurlProps :=
  match qemuBlockStorageSourceGetURI src with
  | none => none
  | some uri =>
    some
      { url := uri
        username := if onlytarget then none else src.auth.map (fun a => a.username)
        passwordSecret :=
          if onlytarget then none
          else if src.auth.isSome then src.priv.bind (fun p => p.secinfoAlias)
          else none
        sslverify := src.sslverify
        cookie := if onlytarget then qemuBlockStorageSourceGetCookieString src else none
        cookieSecret :=
          if onlytarget then none else src.priv.bind (fun p => p.httpcookieAlias)
        timeout := if src.timeout ≠ 0 then some src.timeout else none
        readahead := if src.readahead ≠ 0 then some src.readahead else none }

/-- Property bag of `qemuBlockStorageSourceGetNBDProps` (qemu_block.c:621). -/
structure NBDProps where
  server : QemuSocketAddress
  exportName : Option String
  tlsCreds : Option String
  tlsHostname : Option String
  reconnectDelay : Option Nat
  deriving DecidableEq, Repr

/-- Model of `qemuBlockStorageSourceGetNBDProps`: exactly one host is
required, its socket address is built, and with `onlytarget` the TLS
credential alias and TLS hostname are cleared before being added. -/
def qemuBlockStorageSourceGetNBDProps (src : VirStorageSource) (onlytarget : Bool) :
    Option NBDProps :=
  match src.hosts with
  | [host] =>
    match qemuBlockStorageSourceBuildJSONSocketAddress host with
    | none => none
    | some serverprops =>
      some
        { server := serverprops
          exportName := src.path
          tlsCreds := if onlytarget then none else src.tlsAlias
          tlsHostname := if onlytarget then none else src.tlsHostname
          reconnectDelay :=
            if src.reconnectDelay ≠ 0 then some src.reconnectDelay else none }
  | _ => none

/-- Property bag of `qemuBlockStorageSourceGetISCSIProps` (qemu_block.c:552). -/
structure ISCSIProps where
  portal : String
  target : String
  lun : Nat
  transport : String
  user : Option String
  passwordSecret : Option String
  initiatorName : Option String
  deriving DecidableEq, Repr

/-- Split of the iSCSI path at the first slash, mirroring the `strchr`
separation of target and lun string in `qemuBlockStorageSourceGetISCSIProps`. -/
def iscsiSplitTargetLun (s : String) : String × Option String :=
  let p := s.posOf '/'
  if p = s.endPos then (s, none)
  else (s.extract 0 p, some (s.extract (s.next p) s.endPos))

/-- Model of `qemuBlockStorageSourceGetISCSIProps`: exactly one host is
required; the path is split into target and numeric lun (parse failure is an
error, a missing separator leaves lun 0); the portal combines host and port,
bracketing numeric IPv6 hosts; credentials are filled only when `onlytarget`
is false. The C code assumes a non-NULL path. The lun parse of the part
after the separator is split into `iscsiParseLun` (a missing separator
leaves lun 0, `virStrToLong_ui` failure is an error). -/
def iscsiParseLun (lunStr : Option String) : Option Nat :=
  match lunStr with
  | none => some 0
  | some s => s.toNat?

def qemuBlockStorageSourceGetISCSIProps (src : VirStorageSource) (onlytarget : Bool) :
    Option ISCSIProps :=
  match src.hosts with
  | [host] =>
    match iscsiParseLun (iscsiSplitTargetLun (src.path.getD "")).2 with
    | none => none
    | some lun =>
      some
        { portal :=
            if host.ipv6 then "[" ++ host.name ++ "]:" ++ toString host.port
            else host.name ++ ":" ++ toString host.port
          target := (iscsiSplitTargetLun (src.path.getD "")).1
          lun := lun
          transport := "tcp"
          user := if onlytarget then none else src.auth.map (fun a => a.username)
          passwordSecret :=
            if onlytarget then none
            else if src.auth.isSome then src.priv.bind (fun p => p.secinfoAlias)
            else none
          initiatorName := src.initiatorIqn }
  | _ => none

/-- Property bag of `qemuBlockStorageSourceGetSshProps` (qemu_block.c:747). -/
structure SshProps where
  path : String
  server : String × String
  user : Option String
  hostKeyCheckMode : Option String
  deriving DecidableEq, Repr

/-- Model of `qemuBlockStorageSourceGetSshProps`: exactly one host is
required and converted to an inet address; the username comes from the auth
descriptor or the ssh user; a disabled host key check adds a mode "none"
sub-object; the `s:path` key rejects a missing path. -/
def qemuBlockStorageSourceGetSshProps (src : VirStorageSource) : Option SshProps :=
  match src.hosts with
  | [host] =>
    match qemuBlockStorageSourceBuildJSONInetSocketAddress host with
    | none => none
    | some serverprops =>
      let username :=
        match src.auth with
        | some a => some a.username
        | none => src.sshUser
      match src.path with
      | none => none
      | some p =>
        some
          { path := p
            server := serverprops
            user := username
            hostKeyCheckMode :=
              if src.sshHostKeyCheckDisabled then some "none" else none }
  | _ => none

/-- C7: the nbd, iscsi, and ssh builders fail (error reported, no property
bag) whenever the host count differs from one; being pure property builders
they issue no device-manager command. -/
theorem c7_single_host_cardinality (src : VirStorageSource) (onlytarget : Bool)
    (h : src.hosts.length ≠ 1) :
    qemuBlockStorageSourceGetNBDProps src onlytarget = none
    ∧ qemuBlockStorageSourceGetISCSIProps src onlytarget = none
    ∧ qemuBlockStorageSourceGetSshProps src = none := by
  rcases hs : src.hosts with _ | ⟨a, _ | ⟨b, rest⟩⟩
  · unfold qemuBlockStorageSourceGetNBDProps qemuBlockStorageSourceGetISCSIProps
      qemuBlockStorageSourceGetSshProps
    rw [hs]
    exact ⟨rfl, rfl, rfl⟩
  · exact absurd (by rw [hs]; rfl) h
  · unfold qemuBlockStorageSourceGetNBDProps qemuBlockStorageSourceGetISCSIProps
      qemuBlockStorageSourceGetSshProps
    rw [hs]
    exact ⟨rfl, rfl, rfl⟩

/-- Sample tcp host. -/
def sampleHost : VirStorageNetHostDef where
  name := "example.org"
  port := 10809
  transport := .tcp
  socket := none
  ipv6 := false

/-- NBD source with two hosts, violating the cardinality rule. -/
def twoHostNbdSource : VirStorageSource :=
  { sampleFileSource with
      stype := .network
      protocol := .nbd
      hosts := [sampleHost, { sampleHost with port := 10810 }] }

/-- Witness for C7 at a concrete two-host source. -/
theorem c7_single_host_cardinality_witness :
    twoHostNbdSource.hosts.length ≠ 1
    ∧ qemuBlockStorageSourceGetNBDProps twoHostNbdSource false = none :=
  ⟨by decide,
   (c7_single_host_cardinality twoHostNbdSource false (by decide)).1⟩



/-- C8: building target-only props equals the full build with every
credential field erased: curl drops username, password secret alias and
cookie secret alias (rendering the plain cookie string instead), nbd drops
the TLS credential alias and TLS hostname, iscsi drops user and password
secret alias. All other fields — the URI, server socket address, export
name, portal, target and lun — are preserved verbatim. -/
theorem c8_target_only_omits_credentials (src : VirStorageSource) :
    qemuBlockStorageSourceGetCURLProps src true
      = (qemuBlockStorageSourceGetCURLProps src false).map
          (fun q =>
            { q with
                username := none
                passwordSecret := none
                cookieSecret := none
                cookie := qemuBlockStorageSourceGetCookieString src })
    ∧ qemuBlockStorageSourceGetNBDProps src true
      = (qemuBlockStorageSourceGetNBDProps src false).map
          (fun q => { q with tlsCreds := none, tlsHostname := none })
    ∧ qemuBlockStorageSourceGetISCSIProps src true
      = (qemuBlockStorageSourceGetISCSIProps src false).map
          (fun q => { q with user := none, passwordSecret := none }) := by
  refine ⟨?_, ?_, ?_⟩
  · unfold qemuBlockStorageSourceGetCURLProps
    split <;> rfl
  · unfold qemuBlockStorageSourceGetNBDProps
    split
    · split <;> rfl
    · rfl
  · unfold qemuBlockStorageSourceGetISCSIProps
    split
    · split <;> rfl
    · rfl

/-- Bitmap metadata entry reported by the device manager
(`qemuBlockNamedNodeDataBitmap`). -/
structure QemuBlockNamedNodeDataBitmap where
  name : String
  granularity : Nat
  recording : Bool
  persistent : Bool
  inconsistent : Bool
  deriving DecidableEq, Repr

/-- One backing-chain layer together with its named-node-data entry: the
effective nodename and the bitmaps reported on it. A chain is the list of
layers walked top-to-bottom following `backingStore` while
`virStorageSourceIsBacking` holds; a node missing from the
blockNamedNodeData hash behaves exactly like one reporting no bitmaps. -/
structure ChainLayer where
  nodename : String
  bitmaps : List QemuBlockNamedNodeDataBitmap
  deriving DecidableEq, Repr

/-- Model of `qemuBlockNamedNodeDataGetBitmapByName` (qemu_block.c:2887):
first bitmap of the node whose name matches. -/
def qemuBlockNamedNodeDataGetBitmapByName (n : ChainLayer) (bitmap : String) :
    Option QemuBlockNamedNodeDataBitmap :=
  n.bitmaps.find? (fun b => b.name == bitmap)

/-- Whether the layer carries a bitmap of the given name. -/
def layerCarries (n : ChainLayer) (B : String) : Bool :=
  (qemuBlockNamedNodeDataGetBitmapByName n B).isSome

/-- Flag check of rule 3 of `qemuBlockBitmapChainIsValid`: recording
(active), persistent and not inconsistent. -/
def bitmapFlagsOk (b : QemuBlockNamedNodeDataBitmap) : Bool :=
  !b.inconsistent && b.persistent && b.recording

/-- Loop of `qemuBlockBitmapChainIsValid` (qemu_block.c:3126) with its two
accumulators `found` and `chain_ended`. -/
def qemuBlockBitmapChainIsValidGo (bitmapname : String) :
    List ChainLayer → Bool → Bool → Bool
  | [], found, _ => found
  | n :: rest, found, chainEnded =>
    match qemuBlockNamedNodeDataGetBitmapByName n bitmapname with
    | none =>
      if !found then false
      else qemuBlockBitmapChainIsValidGo bitmapname rest found true
    | some bitmap =>
      if chainEnded then false
      else if bitmap.inconsistent || !bitmap.persistent || !bitmap.recording then false
      else qemuBlockBitmapChainIsValidGo bitmapname rest true chainEnded

/-- Model of `qemuBlockBitmapChainIsValid` (qemu_block.c:3117). -/
def qemuBlockBitmapChainIsValid (chain : List ChainLayer) (bitmapname : String) : Bool :=
  qemuBlockBitmapChainIsValidGo bitmapname chain false false

/-- Tail shape of the validity loop once the bitmap has been found and the
carrier run has not ended: every further carrier must be well-flagged and
once a layer lacks the bitmap all layers below must lack it. -/
def bitmapTailValid (B : String) : List ChainLayer → Bool
  | [] => true
  | n :: rest =>
    match qemuBlockNamedNodeDataGetBitmapByName n B with
    | none => rest.all (fun m => !(layerCarries m B))
    | some b => bitmapFlagsOk b && bitmapTailValid B rest

theorem bitmapChainGo_ended (B : String) (l : List ChainLayer) :
    qemuBlockBitmapChainIsValidGo B l true true
      = l.all (fun m => !(layerCarries m B)) := by
  induction l with
  | nil => rfl
  | cons n rest ih =>
    unfold qemuBlockBitmapChainIsValidGo layerCarries
    rcases h : qemuBlockNamedNodeDataGetBitmapByName n B with _ | b
    · simp [h, ih, layerCarries]
    · simp [h]

theorem bitmapChainGo_found (B : String) (l : List ChainLayer) :
    qemuBlockBitmapChainIsValidGo B l true false = bitmapTailValid B l := by
  induction l with
  | nil => rfl
  | cons n rest ih =>
    unfold qemuBlockBitmapChainIsValidGo bitmapTailValid
    rcases h : qemuBlockNamedNodeDataGetBitmapByName n B with _ | b
    · simpa using bitmapChainGo_ended B rest
    · simp only
      rcases hi : b.inconsistent with _ | _ <;>
        rcases hp : b.persistent with _ | _ <;>
          rcases hr : b.recording with _ | _ <;>
            simp [bitmapFlagsOk, hi, hp, hr, ih]

theorem bitmapChainIsValid_shape (chain : List ChainLayer) (B : String) :
    qemuBlockBitmapChainIsValid chain B
      = match chain with
        | [] => false
        | n :: rest =>
          match qemuBlockNamedNodeDataGetBitmapByName n B with
          | none => false
          | some b => bitmapFlagsOk b && bitmapTailValid B rest := by
  unfold qemuBlockBitmapChainIsValid
  rcases chain with _ | ⟨n, rest⟩
  · rfl
  · unfold qemuBlockBitmapChainIsValidGo
    rcases h : qemuBlockNamedNodeDataGetBitmapByName n B with _ | b
    · simp [h]
    · simp only
      rcases hi : b.inconsistent with _ | _ <;>
        rcases hp : b.persistent with _ | _ <;>
          rcases hr : b.recording with _ | _ <;>
            simp [bitmapFlagsOk, hi, hp, hr, bitmapChainGo_found, h]

theorem pairwise_of_all_false (L : List Bool) (h : ∀ y ∈ L, y = false) :
    L.Pairwise (fun x y => y = true → x = true) := by
  refine List.pairwise_of_forall_mem_list ?_
  intro a _ b hb hbt
  rw [h b hb] at hbt
  exact absurd hbt (by simp)

theorem flags_of_all_lack (B : String) (l : List ChainLayer)
    (h : ∀ m ∈ l, layerCarries m B = false) :
    ∀ m ∈ l, ∀ b, qemuBlockNamedNodeDataGetBitmapByName m B = some b →
      bitmapFlagsOk b = true := by
  intro m hm b hb
  have hc := h m hm
  rw [layerCarries, hb] at hc
  exact absurd hc (by simp)

theorem bitmapTailValid_iff (B : String) (l : List ChainLayer) :
    bitmapTailValid B l = true ↔
      (List.Pairwise (fun x y => y = true → x = true)
          (l.map (fun n => layerCarries n B))
       ∧ ∀ n ∈ l, ∀ b, qemuBlockNamedNodeDataGetBitmapByName n B = some b →
           bitmapFlagsOk b = true) := by
  induction l with
  | nil => simp [bitmapTailValid]
  | cons n rest ih =>
    unfold bitmapTailValid
    rcases h : qemuBlockNamedNodeDataGetBitmapByName n B with _ | b
    · have hc : layerCarries n B = false := by simp [layerCarries, h]
      simp only [List.all_eq_true, List.map_cons, List.pairwise_cons,
        List.forall_mem_cons, hc, h, Bool.not_eq_true']
      constructor
      · intro hall
        refine ⟨⟨?_, pairwise_of_all_false _ ?_⟩, ⟨?_, flags_of_all_lack B rest hall⟩⟩
        · intro y hy hyt
          rcases List.mem_map.mp hy with ⟨m, hm, rfl⟩
          rw [hall m hm] at hyt
          exact absurd hyt (by simp)
        · intro y hy
          rcases List.mem_map.mp hy with ⟨m, hm, rfl⟩
          exact hall m hm
        · intro b hb
          exact absurd hb (by simp)
      · rintro ⟨⟨hhead, _⟩, _, _⟩
        intro m hm
        have := hhead (layerCarries m B) (List.mem_map.mpr ⟨m, hm, rfl⟩)
        rcases hcm : layerCarries m B with _ | _
        · rfl
        · exact absurd (this hcm) (by simp)
    · have hc : layerCarries n B = true := by simp [layerCarries, h]
      simp only [Bool.and_eq_true, List.map_cons, List.pairwise_cons,
        List.forall_mem_cons, hc, h, ih]
      constructor
      · rintro ⟨hflags, hpw, hgood⟩
        refine ⟨⟨fun y _ _ => trivial, hpw⟩, ⟨?_, hgood⟩⟩
        intro b' hb'
        cases Option.some.inj hb'
        exact hflags
      · rintro ⟨⟨_, hpw⟩, hhead, hgood⟩
        exact ⟨hhead b rfl, hpw, hgood⟩

/-- C3: the chain validity predicate holds exactly when the bitmap exists
at the top layer, no layer below a layer lacking it carries it again (the
carriers form a contiguous run from the top), and every carrier has the
bitmap recording (active), persistent and not inconsistent. -/
theorem c3_bitmap_chain_validity (chain : List ChainLayer) (B : String) :
    qemuBlockBitmapChainIsValid chain B = true ↔
      ((∃ top rest, chain = top :: rest ∧ layerCarries top B = true)
       ∧ List.Pairwise (fun x y => y = true → x = true)
           (chain.map (fun n => layerCarries n B))
       ∧ ∀ n ∈ chain, ∀ b, qemuBlockNamedNodeDataGetBitmapByName n B = some b →
           b.recording = true ∧ b.persistent = true ∧ b.inconsistent = false) := by
  rw [bitmapChainIsValid_shape]
  rcases chain with _ | ⟨n, rest⟩
  · simp
  · rcases h : qemuBlockNamedNodeDataGetBitmapByName n B with _ | b
    · have hc : layerCarries n B = false := by simp [layerCarries, h]
      simp only [h, Bool.false_eq_true, false_iff]
      rintro ⟨⟨top, rest', heq, htop⟩, _, _⟩
      cases List.cons.inj heq |>.1
      rw [hc] at htop
      exact absurd htop (by simp)
    · have hc : layerCarries n B = true := by simp [layerCarries, h]
      have hflagsiff : ∀ b' : QemuBlockNamedNodeDataBitmap,
          bitmapFlagsOk b' = true ↔
            (b'.recording = true ∧ b'.persistent = true ∧ b'.inconsistent = false) := by
        intro b'
        unfold bitmapFlagsOk
        rcases b'.recording with _ | _ <;> rcases b'.persistent with _ | _ <;>
          rcases b'.inconsistent with _ | _ <;> simp
      simp only [Bool.and_eq_true, bitmapTailValid_iff, List.map_cons,
        List.pairwise_cons, List.forall_mem_cons, h]
      constructor
      · rintro ⟨hflags, hpw, hgood⟩
        refine ⟨⟨n, rest, rfl, hc⟩, ⟨fun y _ _ => hc, hpw⟩, ?_, ?_⟩
        · intro b' hb'
          cases Option.some.inj hb'
          exact (hflagsiff b).mp hflags
        · intro m hm b' hb'
          exact (hflagsiff b').mp (hgood m hm b' hb')
      · rintro ⟨_, ⟨_, hpw⟩, hhead, hgood⟩
        refine ⟨(hflagsiff b).mpr (hhead b rfl), hpw, ?_⟩
        intro m hm b' hb'
        exact (hflagsiff b').mpr (hgood m hm b' hb')

/-- One action of the atomic 'transaction' command produced by the merge
planner; constructors mirror `qemuMonitorTransactionBitmapAdd`,
`qemuMonitorTransactionBitmapMerge` (whose source list is filled through
`qemuMonitorTransactionBitmapMergeSourceAddBitmap`) and
`qemuMonitorTransactionBitmapRemove`. -/
inductive BlockTransactionAction
  | bitmapAdd (node : String) (name : String) (persistent : Bool) (disabled : Bool)
      (granularity : Nat)
  | bitmapMerge (node : String) (name : String) (sources : List (String × String))
  | bitmapRemove (node : String) (name : String)
  deriving DecidableEq, Repr

/-- Model of `qemuBlockGetBitmapMergeActionsGetBitmaps` (qemu_block.c:2943):
the names of the top-layer bitmaps (restricted to the requested name when
one is given) whose chain is valid; `g_slist_prepend` reverses the
iteration order. A missing hash entry for the top node behaves like an
empty bitmap list. -/
def getBitmapsStep (chain : List ChainLayer) (bitmapname : Option String)
    (acc : List String) (bitmap : QemuBlockNamedNodeDataBitmap) : List String :=
  if (match bitmapname with
      | some bn => decide (bn ≠ bitmap.name)
      | none => false) then acc
  else if !(qemuBlockBitmapChainIsValid chain bitmap.name) then acc
  else bitmap.name :: acc

def qemuBlockGetBitmapMergeActionsGetBitmaps (chain : List ChainLayer)
    (bitmapname : Option String) : List String :=
  match chain with
  | [] => []
  | top :: _ => top.bitmaps.foldl (getBitmapsStep chain bitmapname) []

/-- The sub-chain walked between the top and the exclusive base
(qemu_block.c:3055, `n != basesrc` on pointer equality): the base is given
as its index in the chain, `none` walks the whole chain. -/
def mergeSubchain (chain : List ChainLayer) (baseIdx : Option Nat) : List ChainLayer :=
  match baseIdx with
  | none => chain
  | some k => chain.take k

/-- Walk of the sub-chain for one bitmap name (qemu_block.c:3055-3067): each
carrier layer contributes one merge source, and the granularity variable,
starting at 0, is assigned only while still 0 (so the first carrier's
granularity is adopted when granularities are nonzero). -/
def bitmapMergeWalkStep (curbitmap : String) (acc : Nat × List (String × String))
    (n : ChainLayer) : Nat × List (String × String) :=
  match qemuBlockNamedNodeDataGetBitmapByName n curbitmap with
  | none => acc
  | some b =>
    ((if acc.1 = 0 then b.granularity else acc.1), acc.2 ++ [(n.nodename, b.name)])

def bitmapMergeWalk (subchain : List ChainLayer) (curbitmap : String) :
    Nat × List (String × String) :=
  subchain.foldl (bitmapMergeWalkStep curbitmap) (0, [])

/-- Actions emitted for one bitmap name by the loop body of
`qemuBlockGetBitmapMergeActions` (qemu_block.c:3038-3091): an explicit
destination name means a temporary disabled non-persistent bitmap, the
default is a persistent active bitmap of the same name; the destination is
created only when an explicit name was given or the target does not carry
the bitmap yet; the active-write bitmap of `writebitmapsrc` joins the merge
sources. -/
def writeBitmapSources (writebitmapsrc : Option ChainLayer) : List (String × String) :=
  match writebitmapsrc with
  | some w => [(w.nodename, "libvirt-tmp-activewrite")]
  | none => []

def writeBitmapRemoveActions (writebitmapsrc : Option ChainLayer) :
    List BlockTransactionAction :=
  match writebitmapsrc with
  | some w => [BlockTransactionAction.bitmapRemove w.nodename "libvirt-tmp-activewrite"]
  | none => []

def bitmapMergeActionsForBitmap (subchain : List ChainLayer) (target : ChainLayer)
    (dstbitmapname : Option String) (writebitmapsrc : Option ChainLayer)
    (curbitmap : String) : List BlockTransactionAction :=
  (if dstbitmapname.isSome
      ∨ qemuBlockNamedNodeDataGetBitmapByName target curbitmap = none then
    [BlockTransactionAction.bitmapAdd target.nodename (dstbitmapname.getD curbitmap)
      dstbitmapname.isNone dstbitmapname.isSome (bitmapMergeWalk subchain curbitmap).1]
  else [])
  ++ [BlockTransactionAction.bitmapMerge target.nodename (dstbitmapname.getD curbitmap)
        ((bitmapMergeWalk subchain curbitmap).2 ++ writeBitmapSources writebitmapsrc)]

/-- Model of `qemuBlockGetBitmapMergeActions` (qemu_block.c:3018): the per-
bitmap actions for every valid bitmap name, followed by the removal of the
transient active-write bitmap when a write-bitmap node was given. The
`qemuMonitorTransaction*` helpers are pure JSON builders, so the planner is
total; C returns the array only when it is nonempty. -/
def qemuBlockGetBitmapMergeActions (chain : List ChainLayer) (baseIdx : Option Nat)
    (target : ChainLayer) (bitmapname : Option String) (dstbitmapname : Option String)
    (writebitmapsrc : Option ChainLayer) : List BlockTransactionAction :=
  ((qemuBlockGetBitmapMergeActionsGetBitmaps chain bitmapname).map
      (bitmapMergeActionsForBitmap (mergeSubchain chain baseIdx) target dstbitmapname
        writebitmapsrc)).flatten
  ++ writeBitmapRemoveActions writebitmapsrc

theorem getBitmapByName_name (n : ChainLayer) (B : String)
    (b : QemuBlockNamedNodeDataBitmap)
    (h : qemuBlockNamedNodeDataGetBitmapByName n B = some b) : b.name = B := by
  have hb := List.find?_some h
  exact eq_of_beq hb

theorem getBitmaps_fold_valid (chain : List ChainLayer) (bn : Option String)
    (l : List QemuBlockNamedNodeDataBitmap) (acc : List String) (B : String)
    (h : B ∈ l.foldl (getBitmapsStep chain bn) acc) :
    B ∈ acc ∨ qemuBlockBitmapChainIsValid chain B = true := by
  induction l generalizing acc with
  | nil => exact Or.inl h
  | cons bm rest ih =>
    rw [List.foldl_cons] at h
    rcases ih _ h with h' | h'
    · unfold getBitmapsStep at h'
      split at h'
      · exact Or.inl h'
      · split at h'
        · exact Or.inl h'
        · rename_i hc1 hc2
          rcases List.mem_cons.mp h' with rfl | hmem
          · right
            simpa using hc2
          · exact Or.inl hmem
    · exact Or.inr h'

/-- Every name returned by the bitmap collection pass has a valid chain. -/
theorem getBitmaps_valid (chain : List ChainLayer) (bn : Option String) (B : String)
    (h : B ∈ qemuBlockGetBitmapMergeActionsGetBitmaps chain bn) :
    qemuBlockBitmapChainIsValid chain B = true := by
  unfold qemuBlockGetBitmapMergeActionsGetBitmaps at h
  rcases chain with _ | ⟨top, rest⟩
  · exact absurd h (by simp)
  · rcases getBitmaps_fold_valid (top :: rest) bn top.bitmaps [] B h with h' | h'
    · exact absurd h' (by simp)
    · exact h'

theorem bitmapMergeWalk_fold_sources (cur : String) (l : List ChainLayer)
    (acc : Nat × List (String × String)) (p : String × String)
    (h : p ∈ (l.foldl (bitmapMergeWalkStep cur) acc).2) :
    p ∈ acc.2 ∨ p.2 = cur := by
  induction l generalizing acc with
  | nil => exact Or.inl h
  | cons n rest ih =>
    rw [List.foldl_cons] at h
    rcases ih _ h with h' | h'
    · unfold bitmapMergeWalkStep at h'
      rcases hb : qemuBlockNamedNodeDataGetBitmapByName n cur with _ | b
      · rw [hb] at h'
        exact Or.inl h'
      · rw [hb] at h'
        rcases List.mem_append.mp h' with hmem | hmem
        · exact Or.inl hmem
        · right
          rcases List.mem_singleton.mp hmem with rfl
          exact getBitmapByName_name n cur b hb
    · exact Or.inr h'

/-- Every merge source collected from the sub-chain names the bitmap being
merged. -/
theorem bitmapMergeWalk_sources (subchain : List ChainLayer) (cur : String)
    (p : String × String) (h : p ∈ (bitmapMergeWalk subchain cur).2) : p.2 = cur := by
  rcases bitmapMergeWalk_fold_sources cur subchain (0, []) p h with h' | h'
  · exact absurd h' (by simp)
  · exact h'


theorem writeBitmapSources_mem (write : Option ChainLayer) (p : String × String)
    (h : p ∈ writeBitmapSources write) :
    ∃ w, write = some w ∧ p.1 = w.nodename ∧ p.2 = "libvirt-tmp-activewrite" := by
  rcases write with _ | w
  · exact absurd h (by simp [writeBitmapSources])
  · rcases List.mem_singleton.mp h with rfl
    exact ⟨w, rfl, rfl, rfl⟩

theorem writeBitmapRemoveActions_mem (write : Option ChainLayer)
    (a : BlockTransactionAction) (h : a ∈ writeBitmapRemoveActions write) :
    ∃ w, write = some w
      ∧ a = BlockTransactionAction.bitmapRemove w.nodename "libvirt-tmp-activewrite" := by
  rcases write with _ | w
  · exact absurd h (by simp [writeBitmapRemoveActions])
  · rcases List.mem_singleton.mp h with rfl
    exact ⟨w, rfl, rfl⟩

theorem bitmapMergeWalk_fold_keep (cur : String) (l : List ChainLayer)
    (acc : Nat × List (String × String)) (h : acc.1 ≠ 0) :
    (l.foldl (bitmapMergeWalkStep cur) acc).1 = acc.1 := by
  induction l generalizing acc with
  | nil => rfl
  | cons n rest ih =>
    rw [List.foldl_cons]
    rcases hb : qemuBlockNamedNodeDataGetBitmapByName n cur with _ | b <;>
      simp only [bitmapMergeWalkStep, hb]
    · exact ih acc h
    · rw [if_neg h]
      exact ih _ h

/-- The granularity adopted by the walk is the granularity of the bitmap on
the first carrier layer, provided the reported granularities are nonzero
(the device manager always reports the actual nonzero granularity). -/
theorem bitmapMergeWalk_granularity (subchain : List ChainLayer) (B : String)
    (b0 : QemuBlockNamedNodeDataBitmap)
    (hfirst : (subchain.filterMap
        (fun n => qemuBlockNamedNodeDataGetBitmapByName n B)).head? = some b0)
    (hgran : ∀ n ∈ subchain, ∀ b, qemuBlockNamedNodeDataGetBitmapByName n B = some b →
        0 < b.granularity) :
    (bitmapMergeWalk subchain B).1 = b0.granularity := by
  unfold bitmapMergeWalk
  induction subchain with
  | nil => cases hfirst
  | cons n rest ih =>
    rw [List.foldl_cons]
    rcases hb : qemuBlockNamedNodeDataGetBitmapByName n B with _ | b <;>
      simp only [bitmapMergeWalkStep, hb]
    · apply ih
      · simpa [List.filterMap_cons, hb] using hfirst
      · intro m hm b hbm
        exact hgran m (List.mem_cons_of_mem _ hm) b hbm
    · have hb0 : b = b0 := by
        simp only [List.filterMap_cons, hb, List.head?_cons, Option.some.injEq] at hfirst
        exact hfirst
      subst hb0
      have hpos : 0 < b.granularity := hgran n (by simp) b hb
      rw [if_pos trivial]
      exact bitmapMergeWalk_fold_keep B rest _ (by omega)

theorem mergeActions_mem (chain : List ChainLayer) (baseIdx : Option Nat)
    (target : ChainLayer) (bitmapname dst : Option String) (write : Option ChainLayer)
    (a : BlockTransactionAction)
    (h : a ∈ qemuBlockGetBitmapMergeActions chain baseIdx target bitmapname dst write) :
    (∃ cur ∈ qemuBlockGetBitmapMergeActionsGetBitmaps chain bitmapname,
       a ∈ bitmapMergeActionsForBitmap (mergeSubchain chain baseIdx) target dst write cur)
    ∨ a ∈ writeBitmapRemoveActions write := by
  unfold qemuBlockGetBitmapMergeActions at h
  rcases List.mem_append.mp h with h' | h'
  · left
    rcases List.mem_flatten.mp h' with ⟨l, hl, hal⟩
    rcases List.mem_map.mp hl with ⟨cur, hcur, rfl⟩
    exact ⟨cur, hcur, hal⟩
  · right
    exact h'

theorem mergeActionsForBitmap_mem (subchain : List ChainLayer) (target : ChainLayer)
    (dst : Option String) (write : Option ChainLayer) (cur : String)
    (a : BlockTransactionAction)
    (h : a ∈ bitmapMergeActionsForBitmap subchain target dst write cur) :
    a = BlockTransactionAction.bitmapAdd target.nodename (dst.getD cur) dst.isNone
          dst.isSome (bitmapMergeWalk subchain cur).1
    ∨ a = BlockTransactionAction.bitmapMerge target.nodename (dst.getD cur)
          ((bitmapMergeWalk subchain cur).2 ++ writeBitmapSources write) := by
  unfold bitmapMergeActionsForBitmap at h
  rcases List.mem_append.mp h with h' | h'
  · split at h'
    · left
      exact List.mem_singleton.mp h'
    · exact absurd h' (by simp)
  · right
    exact List.mem_singleton.mp h'

/-- C4: a bitmap name whose chain fails the validity predicate is silently
excluded from merge planning: it is not collected, no emitted merge action
draws a merge source carrying that name from a chain layer (the transient
active-write bitmap of the designated write node is the only exception),
and with no explicit destination name no emitted add or merge action is
named after it. No error is reported (the planner stays total). -/
theorem c4_invalid_bitmap_not_merged (chain : List ChainLayer) (baseIdx : Option Nat)
    (target : ChainLayer) (bitmapname dst : Option String) (write : Option ChainLayer)
    (B : String) (h : qemuBlockBitmapChainIsValid chain B = false) :
    B ∉ qemuBlockGetBitmapMergeActionsGetBitmaps chain bitmapname
    ∧ (∀ node nm srcs,
        BlockTransactionAction.bitmapMerge node nm srcs
          ∈ qemuBlockGetBitmapMergeActions chain baseIdx target bitmapname dst write →
        ∀ sn, (sn, B) ∈ srcs →
          ∃ w, write = some w ∧ sn = w.nodename ∧ B = "libvirt-tmp-activewrite")
    ∧ (dst = none →
        ∀ a ∈ qemuBlockGetBitmapMergeActions chain baseIdx target bitmapname dst write,
          (∀ node ps db g, a ≠ BlockTransactionAction.bitmapAdd node B ps db g)
          ∧ (∀ node srcs, a ≠ BlockTransactionAction.bitmapMerge node B srcs)) := by
  have hnot : B ∉ qemuBlockGetBitmapMergeActionsGetBitmaps chain bitmapname := by
    intro hmem
    rw [getBitmaps_valid chain bitmapname B hmem] at h
    exact absurd h (by simp)
  refine ⟨hnot, ?_, ?_⟩
  · intro node nm srcs hmem sn hsrc
    rcases mergeActions_mem chain baseIdx target bitmapname dst write _ hmem with
      ⟨cur, hcur, hal⟩ | hrm
    · rcases mergeActionsForBitmap_mem _ _ _ _ _ _ hal with heq | heq
      · cases heq
      · rcases BlockTransactionAction.bitmapMerge.inj heq with ⟨_, _, hsrcs⟩
        rw [hsrcs] at hsrc
        rcases List.mem_append.mp hsrc with hmem' | hmem'
        · have hbc : B = cur := bitmapMergeWalk_sources _ _ _ hmem'
          rw [hbc] at hnot
          exact absurd hcur hnot
        · rcases writeBitmapSources_mem write _ hmem' with ⟨w, hw, h1, h2⟩
          exact ⟨w, hw, h1, h2⟩
    · rcases writeBitmapRemoveActions_mem write _ hrm with ⟨w, _, heq⟩
      cases heq
  · rintro rfl a hmem
    rcases mergeActions_mem chain baseIdx target bitmapname none write _ hmem with
      ⟨cur, hcur, hal⟩ | hrm
    · have hcurB : cur ≠ B := by
        intro hcb
        rw [hcb] at hcur
        exact hnot hcur
      rcases mergeActionsForBitmap_mem _ _ _ _ _ _ hal with heq | heq
      · constructor
        · intro node ps db g heq'
          rw [heq'] at heq
          rcases BlockTransactionAction.bitmapAdd.inj heq with ⟨_, hnm, _, _, _⟩
          exact hcurB (by simpa using hnm.symm)
        · intro node srcs heq'
          rw [heq'] at heq
          cases heq
      · constructor
        · intro node ps db g heq'
          rw [heq'] at heq
          cases heq
        · intro node srcs heq'
          rw [heq'] at heq
          rcases BlockTransactionAction.bitmapMerge.inj heq with ⟨_, hnm, _⟩
          exact hcurB (by simpa using hnm.symm)
    · rcases writeBitmapRemoveActions_mem write _ hrm with ⟨w, _, heq⟩
      rw [heq]
      constructor
      · intro node ps db g heq'
        cases heq'
      · intro node srcs heq'
        cases heq'

/-- A well-flagged checkpoint bitmap named "chk1". -/
def chk1Bitmap (g : Nat) : QemuBlockNamedNodeDataBitmap where
  name := "chk1"
  granularity := g
  recording := true
  persistent := true
  inconsistent := false

/-- Scenario C chain: top and base carry "chk1", the middle layer lacks it. -/
def gapChain : List ChainLayer :=
  [{ nodename := "libvirt-3-format", bitmaps := [chk1Bitmap 65536] },
   { nodename := "libvirt-2-format", bitmaps := [] },
   { nodename := "libvirt-1-format", bitmaps := [chk1Bitmap 65536] }]

/-- Witness for C4: the gapped chain is invalid for "chk1" and the planner
does not collect it. -/
theorem c4_invalid_bitmap_not_merged_witness :
    qemuBlockBitmapChainIsValid gapChain "chk1" = false
    ∧ "chk1" ∉ qemuBlockGetBitmapMergeActionsGetBitmaps gapChain none :=
  ⟨by decide,
   (c4_invalid_bitmap_not_merged gapChain none
     { nodename := "libvirt-4-format", bitmaps := [] } none none none "chk1"
     (by decide)).1⟩

/-- C9: for a collected (valid) bitmap name whose merge must create the
destination bitmap, the created bitmap's granularity is the granularity of
that bitmap on the first intervening layer (walking top-to-bottom, base
exclusive) that carries it; layers below the first carrier do not influence
it. Granularities are assumed nonzero, as the device manager reports the
actual granularity of every bitmap. -/
theorem c9_granularity_first_encountered (chain : List ChainLayer)
    (baseIdx : Option Nat) (target : ChainLayer) (bitmapname dst : Option String)
    (write : Option ChainLayer) (B : String) (b0 : QemuBlockNamedNodeDataBitmap)
    (hmem : B ∈ qemuBlockGetBitmapMergeActionsGetBitmaps chain bitmapname)
    (hcreate : dst.isSome = true
      ∨ qemuBlockNamedNodeDataGetBitmapByName target B = none)
    (hfirst : ((mergeSubchain chain baseIdx).filterMap
        (fun n => qemuBlockNamedNodeDataGetBitmapByName n B)).head? = some b0)
    (hgran : ∀ n ∈ mergeSubchain chain baseIdx, ∀ b,
        qemuBlockNamedNodeDataGetBitmapByName n B = some b → 0 < b.granularity) :
    BlockTransactionAction.bitmapAdd target.nodename (dst.getD B) dst.isNone dst.isSome
        b0.granularity
      ∈ qemuBlockGetBitmapMergeActions chain baseIdx target bitmapname dst write := by
  unfold qemuBlockGetBitmapMergeActions
  apply List.mem_append.mpr
  left
  apply List.mem_flatten.mpr
  refine ⟨bitmapMergeActionsForBitmap (mergeSubchain chain baseIdx) target dst write B,
    List.mem_map.mpr ⟨B, hmem, rfl⟩, ?_⟩
  unfold bitmapMergeActionsForBitmap
  rw [← bitmapMergeWalk_granularity (mergeSubchain chain baseIdx) B b0 hfirst hgran]
  apply List.mem_append.mpr
  left
  rw [if_pos hcreate]
  exact List.mem_singleton.mpr rfl

/-- Two-carrier chain whose top and mid layers disagree on granularity. -/
def disagreeChain : List ChainLayer :=
  [{ nodename := "libvirt-2-format", bitmaps := [chk1Bitmap 65536] },
   { nodename := "libvirt-1-format", bitmaps := [chk1Bitmap 131072] }]

/-- Witness for C9: the destination bitmap created for "chk1" adopts the
top layer's granularity 65536, not the lower layer's 131072. -/
theorem c9_granularity_first_encountered_witness :
    BlockTransactionAction.bitmapAdd "libvirt-9-format" "chk1" true false 65536
      ∈ qemuBlockGetBitmapMergeActions disagreeChain none
          { nodename := "libvirt-9-format", bitmaps := [] } none none none :=
  c9_granularity_first_encountered disagreeChain none
    { nodename := "libvirt-9-format", bitmaps := [] } none none none "chk1"
    (chk1Bitmap 65536) (by decide) (by decide) (by decide)
    (by
      intro n hn b hb
      rcases List.mem_cons.mp hn with rfl | hn
      · cases Option.some.inj hb
        decide
      · rcases List.mem_cons.mp hn with rfl | hn
        · cases Option.some.inj hb
          decide
        · cases hn)

/-- Block job lifecycle state (`qemuBlockjobState`, declared in the
qemu_blockjob header). -/
inductive QemuBlockjobState
  | completed
  | failed
  | cancelled
  | ready
  | new
  | running
  | concluded
  | aborting
  | pivoting
  | pending
  deriving DecidableEq, Repr

/-- Block job type (`qemuBlockJobType`). -/
inductive QemuBlockjobType
  | none
  | pull
  | copy
  | commit
  | activeCommit
  | backup
  | internal
  | create
  | snapshotSave
  | snapshotDelete
  | snapshotLoad
  | broken
  deriving DecidableEq, Repr

/-- Block job record (`qemuBlockJobData`), the fields read by
`qemuBlockPivot`; the two jobflag bits of interest are carried as booleans
and `jobflagsmissing` marks jobs recovered from a status document without
their flags. -/
structure QemuBlockJobData where
  name : String
  jtype : QemuBlockjobType
  state : QemuBlockjobState
  jobflagsmissing : Bool
  shallowFlag : Bool
  reuseFlag : Bool
  commitBaseNodename : String
  deriving DecidableEq, Repr

/-- Mirror destination of a copy job, as read by `qemuBlockPivot`:
effective nodename, format nodename and the effective nodename of its
backing store when one exists. -/
structure PivotMirror where
  effectiveNodename : String
  formatNodename : Option String
  backing : Option String
  deriving DecidableEq, Repr

/-- Disk as read by `qemuBlockPivot`. -/
structure PivotDisk where
  mirror : Option PivotMirror
  deriving DecidableEq, Repr

/-- Monitor oracle for one pivot call: whether each device-manager exchange
(and the pre-monitor host preparation) succeeds. The write-tracking bitmap
transaction result is carried too, although qemu_block.c:3976 wraps that
call in ignore_value. -/
structure PivotMonitor where
  prepareOk : Bool
  enterOk : Bool
  chainAttachOk : Bool
  reopenOk : Bool
  bitmapOk : Bool
  jobCompleteOk : Bool
  deriving DecidableEq, Repr

/-- Monitor exchanges issued by one pivot call. -/
inductive PivotCmd
  | chainAttach
  | transactionReopen
  | chainDetach
  | transactionBitmap
  | jobComplete
  deriving DecidableEq, Repr

/-- Result of one `qemuBlockPivot` call: return value, resulting job state,
the monitor exchanges issued, and whether the disk mirror was marked
pivoted. -/
structure PivotResult where
  ret : Int
  state : QemuBlockjobState
  trace : List PivotCmd
  mirrorPivoted : Bool
  deriving DecidableEq, Repr

/-- Whether the copy pivot must attach the deferred backing chain of the
mirror (qemu_block.c:3930): flags known, reuse and shallow requested, and
the mirror has a backing store. -/
def pivotNeedsAttach (job : QemuBlockJobData) (disk : Option PivotDisk) : Bool :=
  !job.jobflagsmissing && job.reuseFlag && job.shallowFlag
    && ((disk.bind (fun d => d.mirror)).bind (fun m => m.backing)).isSome

/-- Monitor section of `qemuBlockPivot` (qemu_block.c:3964-3991): the
deferred chain attach and snapshot transaction (detaching again on
transaction failure), the ignored bitmap transaction, the job-complete
command, and the final state update performed only when job-complete
succeeded. -/
def pivotMonitorPhase (mon : PivotMonitor) (jobState : QemuBlockjobState)
    (hasAttach hasBitmaps diskHasMirror : Bool) : PivotResult :=
  if !mon.enterOk then
    { ret := -1, state := jobState, trace := [], mirrorPivoted := false }
  else
    let attachPart : Int × List PivotCmd :=
      if hasAttach then
        if mon.chainAttachOk then
          if mon.reopenOk then (0, [.chainAttach, .transactionReopen])
          else (-1, [.chainAttach, .transactionReopen, .chainDetach])
        else (-1, [.chainAttach])
      else (0, [])
    let bitmapPart : List PivotCmd :=
      if hasBitmaps && attachPart.1 = 0 then [.transactionBitmap] else []
    if attachPart.1 = 0 then
      if mon.jobCompleteOk then
        { ret := 0, state := .pivoting,
          trace := attachPart.2 ++ bitmapPart ++ [.jobComplete],
          mirrorPivoted := diskHasMirror }
      else
        { ret := -1, state := jobState,
          trace := attachPart.2 ++ bitmapPart ++ [.jobComplete],
          mirrorPivoted := false }
    else
      { ret := -1, state := jobState, trace := attachPart.2 ++ bitmapPart,
        mirrorPivoted := false }

/-- Model of `qemuBlockPivot` (qemu_block.c:3870): jobs not in READY fail
without any command; unsupported job types fail without any command;
otherwise the copy-specific preparation (failing before the monitor when
host preparation fails) is followed by the monitor section. -/
def qemuBlockPivot (mon : PivotMonitor) (job : QemuBlockJobData)
    (disk : Option PivotDisk) : PivotResult :=
  if job.state ≠ .ready then
    { ret := -1, state := job.state, trace := [], mirrorPivoted := false }
  else
    match job.jtype with
    | .none | .pull | .commit | .backup | .internal | .create | .snapshotSave
    | .snapshotDelete | .snapshotLoad | .broken =>
      { ret := -1, state := job.state, trace := [], mirrorPivoted := false }
    | .copy =>
      if pivotNeedsAttach job disk && !mon.prepareOk then
        { ret := -1, state := job.state, trace := [], mirrorPivoted := false }
      else
        pivotMonitorPhase mon job.state (pivotNeedsAttach job disk)
          (!job.jobflagsmissing) ((disk.bind (fun d => d.mirror)).isSome)
    | .activeCommit =>
      pivotMonitorPhase mon job.state false true
        ((disk.bind (fun d => d.mirror)).isSome)

/-- Monitor oracle where every exchange succeeds except the write-tracking
bitmap transaction. -/
def c2FailingBitmapMonitor : PivotMonitor where
  prepareOk := true
  enterOk := true
  chainAttachOk := true
  reopenOk := true
  bitmapOk := false
  jobCompleteOk := true

/-- A READY copy job with known flags (neither shallow nor reuse). -/
def c2ReadyCopyJob : QemuBlockJobData where
  name := "copy-vda"
  jtype := .copy
  state := .ready
  jobflagsmissing := false
  shallowFlag := false
  reuseFlag := false
  commitBaseNodename := "libvirt-1-format"

/-- Disk with a mirror destination and no deferred backing. -/
def c2MirrorDisk : Option PivotDisk :=
  some { mirror := some { effectiveNodename := "libvirt-5-format",
                          formatNodename := some "libvirt-5-format",
                          backing := none } }

/-- Counterexample for C2 as stated: the write-tracking bitmap registration
sub-step is issued and fails (its result is ignored by the code), yet the
job still transitions to PIVOTING, so PIVOTING is reached without every
pivot sub-step succeeding. -/
theorem c2_counterexample :
    c2FailingBitmapMonitor.bitmapOk = false
    ∧ PivotCmd.transactionBitmap
        ∈ (qemuBlockPivot c2FailingBitmapMonitor c2ReadyCopyJob c2MirrorDisk).trace
    ∧ (qemuBlockPivot c2FailingBitmapMonitor c2ReadyCopyJob c2MirrorDisk).state
        = QemuBlockjobState.pivoting
    ∧ (qemuBlockPivot c2FailingBitmapMonitor c2ReadyCopyJob c2MirrorDisk).ret = 0 := by
  refine ⟨rfl, ?_, rfl, rfl⟩
  decide

/-- The monitor section either pivots with return 0 — exactly when the
monitor is entered, job-complete succeeds and any required attach/reopen
succeeded — or returns -1 leaving the state unchanged. -/
theorem pivotMonitorPhase_cases (mon : PivotMonitor) (jobState : QemuBlockjobState)
    (hasAttach hasBitmaps dm : Bool) :
    ((pivotMonitorPhase mon jobState hasAttach hasBitmaps dm).ret = 0
      ∧ (pivotMonitorPhase mon jobState hasAttach hasBitmaps dm).state = .pivoting
      ∧ (mon.enterOk = true ∧ mon.jobCompleteOk = true
         ∧ (hasAttach = true → mon.chainAttachOk = true ∧ mon.reopenOk = true)))
    ∨ ((pivotMonitorPhase mon jobState hasAttach hasBitmaps dm).ret = -1
      ∧ (pivotMonitorPhase mon jobState hasAttach hasBitmaps dm).state = jobState
      ∧ ¬(mon.enterOk = true ∧ mon.jobCompleteOk = true
         ∧ (hasAttach = true → mon.chainAttachOk = true ∧ mon.reopenOk = true))) := by
  rcases mon with ⟨mp, me, mc, mr, mb, mj⟩
  cases me <;> cases mj <;> cases hasAttach <;> cases mc <;> cases mr <;>
    cases hasBitmaps <;> simp [pivotMonitorPhase]

/-- C2 (amended): a job not in READY fails with an error before issuing any
command and its state is unchanged; whenever pivot returns an error the job
state is unchanged (READY is preserved, so the pivot may be retried); and
the state changes to PIVOTING exactly when the monitor was entered, the
job-complete command succeeded and — when the deferred backing chain of a
copy mirror must be installed — the host preparation, chain attach and
snapshot-merge transaction succeeded. The write-tracking bitmap
registration result is deliberately ignored and does not affect the
transition. -/
theorem c2_pivot_state_machine (mon : PivotMonitor) (job : QemuBlockJobData)
    (disk : Option PivotDisk) :
    (job.state ≠ .ready →
      qemuBlockPivot mon job disk
        = { ret := -1, state := job.state, trace := [], mirrorPivoted := false })
    ∧ ((qemuBlockPivot mon job disk).ret = -1 →
        (qemuBlockPivot mon job disk).state = job.state)
    ∧ (job.state = .ready → job.jtype = .copy →
        ((qemuBlockPivot mon job disk).state = .pivoting ↔
          mon.enterOk = true ∧ mon.jobCompleteOk = true
          ∧ (pivotNeedsAttach job disk = true →
              mon.prepareOk = true ∧ mon.chainAttachOk = true ∧ mon.reopenOk = true)))
    ∧ (job.state = .ready → job.jtype = .activeCommit →
        ((qemuBlockPivot mon job disk).state = .pivoting ↔
          mon.enterOk = true ∧ mon.jobCompleteOk = true)) := by
  by_cases hs : job.state = QemuBlockjobState.ready
  case neg =>
    have hpivot : qemuBlockPivot mon job disk
        = { ret := -1, state := job.state, trace := [], mirrorPivoted := false } := by
      unfold qemuBlockPivot
      rw [if_pos hs]
    refine ⟨fun _ => hpivot, ?_, fun h => absurd h hs, fun h => absurd h hs⟩
    intro _
    rw [hpivot]
  case pos =>
    have hs' : ¬job.state ≠ QemuBlockjobState.ready := by simpa using hs
    refine ⟨fun h => absurd hs h, ?_, ?_, ?_⟩
    · rcases ht : job.jtype <;> simp only [qemuBlockPivot, ht, if_neg hs'] <;>
        try (exact fun _ => trivial)
      · -- copy
        split
        · intro _
          rfl
        · rcases pivotMonitorPhase_cases mon job.state (pivotNeedsAttach job disk)
              (!job.jobflagsmissing) ((disk.bind (fun d => d.mirror)).isSome) with
            ⟨h0, _, _⟩ | ⟨_, hst, _⟩
          · intro h
            exact absurd (h0.symm.trans h) (by decide)
          · intro _
            exact hst
      · -- active commit
        rcases pivotMonitorPhase_cases mon job.state false true
            ((disk.bind (fun d => d.mirror)).isSome) with
          ⟨h0, _, _⟩ | ⟨_, hst, _⟩
        · intro h
          exact absurd (h0.symm.trans h) (by decide)
        · intro _
          exact hst
    · intro _ ht
      simp only [qemuBlockPivot, ht, if_neg hs']
      split
      case isTrue hpre =>
        have hna : pivotNeedsAttach job disk = true ∧ mon.prepareOk = false := by
          rcases hv : pivotNeedsAttach job disk with _ | _ <;>
            rcases hw : mon.prepareOk with _ | _ <;>
              rw [hv, hw] at hpre <;> simp at hpre ⊢
        rw [hs]
        constructor
        · intro h
          cases h
        · rintro ⟨_, _, himp⟩
          rcases himp hna.1 with ⟨hmp, _, _⟩
          rw [hna.2] at hmp
          cases hmp
      case isFalse hpre =>
        have hprep : pivotNeedsAttach job disk = true → mon.prepareOk = true := by
          intro hna
          rcases hv : mon.prepareOk with _ | _
          · exfalso
            apply hpre
            rw [hna, hv]
            rfl
          · rfl
        rcases pivotMonitorPhase_cases mon job.state (pivotNeedsAttach job disk)
            (!job.jobflagsmissing) ((disk.bind (fun d => d.mirror)).isSome) with
          ⟨_, hst, hcond⟩ | ⟨_, hst, hcond⟩
        · rw [hst]
          constructor
          · intro _
            exact ⟨hcond.1, hcond.2.1,
              fun hna => ⟨hprep hna, (hcond.2.2 hna).1, (hcond.2.2 hna).2⟩⟩
          · intro _
            rfl
        · rw [hst, hs]
          constructor
          · intro h
            cases h
          · rintro ⟨hme, hmj, himp⟩
            exact absurd ⟨hme, hmj, fun hna => ⟨(himp hna).2.1, (himp hna).2.2⟩⟩ hcond
    · intro _ ht
      simp only [qemuBlockPivot, ht, if_neg hs']
      rcases pivotMonitorPhase_cases mon job.state false true
          ((disk.bind (fun d => d.mirror)).isSome) with
        ⟨_, hst, hcond⟩ | ⟨_, hst, hcond⟩
      · rw [hst]
        exact ⟨fun _ => ⟨hcond.1, hcond.2.1⟩, fun _ => rfl⟩
      · rw [hst, hs]
        constructor
        · intro h
          cases h
        · rintro ⟨hme, hmj⟩
          exact absurd ⟨hme, hmj, fun hfa => absurd hfa (by decide)⟩ hcond

/-- Witness for C2 (amended) at a READY active-commit job with a fully
successful monitor: the job pivots. -/
theorem c2_pivot_state_machine_witness :
    (qemuBlockPivot
        { prepareOk := true, enterOk := true, chainAttachOk := true, reopenOk := true,
          bitmapOk := true, jobCompleteOk := true }
        { c2ReadyCopyJob with jtype := .activeCommit } c2MirrorDisk).state
      = QemuBlockjobState.pivoting :=
  ((c2_pivot_state_machine
      { prepareOk := true, enterOk := true, chainAttachOk := true, reopenOk := true,
        bitmapOk := true, jobCompleteOk := true }
      { c2ReadyCopyJob with jtype := .activeCommit } c2MirrorDisk).2.2.2
    rfl rfl).mpr ⟨rfl, rfl⟩

/-- Sub-objects created by one attach of a storage layer: the components of
`qemuBlockStorageSourceAttachData` (dependency objects, the three blockdev
nodes, the character device and the FD passing object). -/
inductive SubObject
  | prmgr
  | authsecret
  | httpcookiesecret
  | tlsKeySecret
  | tls
  | fdpass
  | encryptsecret (i : Nat)
  | storage
  | slice
  | format
  | chardev
  deriving DecidableEq, Repr

/-- Monitor commands exchanged by the attach/rollback protocol
(`qemuMonitorAddObject`/`DelObject`, `qemuMonitorBlockdevAdd`/`Del`,
`qemuFDPassTransferMonitor`/`Rollback`, `qemuMonitorAttachCharDev` /
`DetachCharDev`). -/
inductive MonCmd
  | addObject (objAlias : String)
  | blockdevAdd (nodename : String)
  | transferFD
  | attachCharDev (objAlias : String)
  | delObject (objAlias : String)
  | blockdevDel (nodename : String)
  | removeFD
  | detachCharDev (objAlias : String)
  deriving DecidableEq, Repr

/-- Static content of one `qemuBlockStorageSourceAttachData` as prepared by
`qemuBlockStorageSourceAttachPrepareBlockdev` and its helpers: for each
dependency object the alias carried inside its props (`none` when the
sub-object is not part of this attach), for each blockdev node the node
name carried inside its props (the prepared NodeName fields hold the same
name), the chardev alias, and whether FD passing data exists. The mutable
per-sub-object attached state (the `*Attached`/`*Alias` flags the C struct
gains during apply) is represented by the set of successfully created
steps. -/
structure AttachData where
  prmgrProps : Option String
  authsecretProps : Option String
  httpcookiesecretProps : Option String
  tlsKeySecretProps : Option String
  tlsProps : Option String
  fdpass : Bool
  encryptsecretProps : List String
  storageProps : Option String
  storageSliceProps : Option String
  formatProps : Option String
  chardevDef : Option String
  deriving DecidableEq, Repr

/-- One guarded step: the sub-object with its command when present. -/
def optStep (o : Option String) (s : SubObject) (mk : String → MonCmd) :
    List (SubObject × MonCmd) :=
  match o with
  | some a => [(s, mk a)]
  | none => []

/-- Creation steps in the order issued by `qemuBlockStorageSourceAttachApply`
(qemu_block.c:1627): storage dependencies (PR manager, auth secret, http
cookie secret, TLS key secret, TLS object, FD transfer —
`qemuBlockStorageSourceAttachApplyStorageDeps`), format dependencies
(encryption secrets), storage node, slice node, format node, chardev. -/
def attachApplySteps (d : AttachData) : List (SubObject × MonCmd) :=
  optStep d.prmgrProps .prmgr .addObject
  ++ optStep d.authsecretProps .authsecret .addObject
  ++ optStep d.httpcookiesecretProps .httpcookiesecret .addObject
  ++ optStep d.tlsKeySecretProps .tlsKeySecret .addObject
  ++ optStep d.tlsProps .tls .addObject
  ++ (if d.fdpass then [(SubObject.fdpass, MonCmd.transferFD)] else [])
  ++ (d.encryptsecretProps.enum.map
      (fun p => (SubObject.encryptsecret p.1, MonCmd.addObject p.2)))
  ++ optStep d.storageProps .storage .blockdevAdd
  ++ optStep d.storageSliceProps .slice .blockdevAdd
  ++ optStep d.formatProps .format .blockdevAdd
  ++ optStep d.chardevDef .chardev .attachCharDev

/-- Sequential execution with stop at the first failed command: returns the
issued commands, the successfully created steps (the per-sub-object
attached flags, each set only after its create succeeded) and overall
success. -/
def attachApplyGo (ok : MonCmd → Bool) :
    List (SubObject × MonCmd) → List MonCmd × List (SubObject × MonCmd) × Bool
  | [] => ([], [], true)
  | (s, c) :: rest =>
    if ok c then
      (c :: (attachApplyGo ok rest).1,
       (s, c) :: (attachApplyGo ok rest).2.1,
       (attachApplyGo ok rest).2.2)
    else ([c], [], false)

/-- Model of `qemuBlockStorageSourceAttachApply` run against a monitor
oracle deciding which commands succeed. -/
def qemuBlockStorageSourceAttachApply (ok : MonCmd → Bool) (d : AttachData) :
    List MonCmd × List (SubObject × MonCmd) × Bool :=
  attachApplyGo ok (attachApplySteps d)

/-- The sub-objects created by an apply run, in creation order. -/
def attachApplyDone (ok : MonCmd → Bool) (d : AttachData) :
    List (SubObject × MonCmd) :=
  (qemuBlockStorageSourceAttachApply ok d).2.1

/-- The attached flag of a sub-object after apply. -/
def attachedAfter (done : List (SubObject × MonCmd)) (s : SubObject) : Bool :=
  done.any (fun sc => sc.1 == s)

/-- Teardown command corresponding to each creation command. -/
def teardownCmd : MonCmd → MonCmd
  | .addObject a => .delObject a
  | .blockdevAdd n => .blockdevDel n
  | .transferFD => .removeFD
  | .attachCharDev a => .detachCharDev a
  | c => c

/-- Teardown candidates in the order of `qemuBlockStorageSourceAttachRollback`
(qemu_block.c:1665): chardev, format node, slice node, storage node, PR
manager, auth secret, encryption secrets, http cookie secret, TLS object,
TLS key secret, FD rollback. In the C code the blockdev nodes and the
chardev are guarded by their explicit attached flags, a dependency object
by its alias (assigned by `qemuMonitorAddObject` only on success), and the
FD teardown by the `qemuFDPass` transferred state (its helper lives outside
src/; per the spec, rollback is driven by per-sub-object attached flags set
only after a successful create) — uniformly the attached flag below. -/
def attachRollbackSteps (d : AttachData) : List (SubObject × MonCmd) :=
  optStep d.chardevDef .chardev .detachCharDev
  ++ optStep d.formatProps .format .blockdevDel
  ++ optStep d.storageSliceProps .slice .blockdevDel
  ++ optStep d.storageProps .storage .blockdevDel
  ++ optStep d.prmgrProps .prmgr .delObject
  ++ optStep d.authsecretProps .authsecret .delObject
  ++ (d.encryptsecretProps.enum.map
      (fun p => (SubObject.encryptsecret p.1, MonCmd.delObject p.2)))
  ++ optStep d.httpcookiesecretProps .httpcookiesecret .delObject
  ++ optStep d.tlsProps .tls .delObject
  ++ optStep d.tlsKeySecretProps .tlsKeySecret .delObject
  ++ (if d.fdpass then [(SubObject.fdpass, MonCmd.removeFD)] else [])

/-- Model of `qemuBlockStorageSourceAttachRollback`: one teardown per
candidate sub-object whose attached flag is set, in the fixed order above. -/
def qemuBlockStorageSourceAttachRollback (d : AttachData)
    (attached : SubObject → Bool) : List MonCmd :=
  (attachRollbackSteps d).filterMap
    (fun sc => if attached sc.1 then some sc.2 else none)

/-- Whether a command tears down a blockdev node or the chardev. -/
def isNodeTeardown : MonCmd → Bool
  | .blockdevDel _ => true
  | .detachCharDev _ => true
  | _ => false

/-- Attach data with a PR manager, an auth secret and a storage node. -/
def c1AttachData : AttachData where
  prmgrProps := some "pr-helper0"
  authsecretProps := some "objlibvirt-1-auth"
  httpcookiesecretProps := none
  tlsKeySecretProps := none
  tlsProps := none
  fdpass := false
  encryptsecretProps := []
  storageProps := some "libvirt-1-storage"
  storageSliceProps := none
  formatProps := none
  chardevDef := none

/-- Oracle failing exactly the storage blockdev-add. -/
def c1Oracle : MonCmd → Bool :=
  fun c => !(c == MonCmd.blockdevAdd "libvirt-1-storage")

/-- Counterexample for C1 as stated: after the PR manager and the auth
secret are created and the storage node creation fails, rollback deletes
the PR manager first and the auth secret second — the creation order, not
its exact reverse. -/
theorem c1_counterexample :
    attachApplyDone c1Oracle c1AttachData
      = [(.prmgr, .addObject "pr-helper0"),
         (.authsecret, .addObject "objlibvirt-1-auth")]
    ∧ (qemuBlockStorageSourceAttachApply c1Oracle c1AttachData).2.2 = false
    ∧ qemuBlockStorageSourceAttachRollback c1AttachData
        (attachedAfter (attachApplyDone c1Oracle c1AttachData))
        = [.delObject "pr-helper0", .delObject "objlibvirt-1-auth"]
    ∧ ((attachApplyDone c1Oracle c1AttachData).map
          (fun sc => teardownCmd sc.2)).reverse
        = [.delObject "objlibvirt-1-auth", .delObject "pr-helper0"]
    ∧ qemuBlockStorageSourceAttachRollback c1AttachData
        (attachedAfter (attachApplyDone c1Oracle c1AttachData))
      ≠ ((attachApplyDone c1Oracle c1AttachData).map
          (fun sc => teardownCmd sc.2)).reverse := by
  decide

theorem optStep_map_td_add (o : Option String) (s : SubObject) :
    (optStep o s MonCmd.addObject).map (fun sc => (sc.1, teardownCmd sc.2))
      = optStep o s MonCmd.delObject := by
  rcases o with _ | a <;> rfl

theorem optStep_map_td_blockdev (o : Option String) (s : SubObject) :
    (optStep o s MonCmd.blockdevAdd).map (fun sc => (sc.1, teardownCmd sc.2))
      = optStep o s MonCmd.blockdevDel := by
  rcases o with _ | a <;> rfl

theorem optStep_map_td_chardev (o : Option String) (s : SubObject) :
    (optStep o s MonCmd.attachCharDev).map (fun sc => (sc.1, teardownCmd sc.2))
      = optStep o s MonCmd.detachCharDev := by
  rcases o with _ | a <;> rfl

theorem enum_map_td (enc : List String) :
    enc.enum.map ((fun (sc : SubObject × MonCmd) => (sc.1, teardownCmd sc.2))
      ∘ (fun p => (SubObject.encryptsecret p.1, MonCmd.addObject p.2)))
      = enc.enum.map (fun p => (SubObject.encryptsecret p.1, MonCmd.delObject p.2)) :=
  rfl

/-- The rollback candidates are a permutation of the creation steps with
each command replaced by its teardown. -/
theorem rollbackSteps_perm (d : AttachData) :
    (attachRollbackSteps d).Perm
      ((attachApplySteps d).map (fun sc => (sc.1, teardownCmd sc.2))) := by
  refine Multiset.coe_eq_coe.mp ?_
  unfold attachRollbackSteps attachApplySteps
  rcases d with ⟨pr, auth, cookie, tlsKey, tls, fd, enc, stor, slice, fmt, chr⟩
  simp only
  rcases fd with _ | _ <;>
    · simp only [List.map_append, List.map_map, optStep_map_td_add,
        optStep_map_td_blockdev, optStep_map_td_chardev, enum_map_td, if_true,
        if_false, Bool.false_eq_true, reduceIte, List.map_cons, List.map_nil]
      simp only [teardownCmd, ← Multiset.coe_add]
      abel

/-- The created steps are a front segment of the creation sequence: a
failure at step k leaves exactly steps 1..k-1 flagged. -/
theorem attachApplyGo_front (ok : MonCmd → Bool) (steps : List (SubObject × MonCmd)) :
    ∃ rest, steps = (attachApplyGo ok steps).2.1 ++ rest := by
  induction steps with
  | nil => exact ⟨[], rfl⟩
  | cons sc rest ih =>
    rcases sc with ⟨s, c⟩
    unfold attachApplyGo
    by_cases h : ok c = true
    · rw [if_pos h]
      rcases ih with ⟨r, hr⟩
      exact ⟨r, by rw [List.cons_append, ← hr]⟩
    · rw [if_neg h]
      exact ⟨(s, c) :: rest, rfl⟩

theorem attachedAfter_iff (done : List (SubObject × MonCmd)) (s : SubObject) :
    attachedAfter done s = true ↔ ∃ c, (s, c) ∈ done := by
  unfold attachedAfter
  rw [List.any_eq_true]
  constructor
  · rintro ⟨⟨s', c⟩, hmem, heq⟩
    have : s' = s := by simpa using heq
    subst this
    exact ⟨c, hmem⟩
  · rintro ⟨c, hmem⟩
    exact ⟨(s, c), hmem, by simp⟩

theorem mem_optStep_key (o : Option String) (s : SubObject) (mk : String → MonCmd)
    (x : SubObject) :
    x ∈ (optStep o s mk).map Prod.fst ↔ o.isSome = true ∧ x = s := by
  rcases o with _ | a <;> simp [optStep]

theorem mem_fdStep_key (b : Bool) (c : MonCmd) (x : SubObject) :
    x ∈ ((if b then [(SubObject.fdpass, c)] else []).map Prod.fst) ↔
      b = true ∧ x = SubObject.fdpass := by
  rcases b with _ | _ <;> simp

theorem mem_enumStep_key (l : List String) (mk : String → MonCmd) (x : SubObject) :
    x ∈ ((l.enum.map (fun p => (SubObject.encryptsecret p.1, mk p.2))).map Prod.fst) ↔
      ∃ i, i < l.length ∧ x = SubObject.encryptsecret i := by
  simp only [List.map_map, List.mem_map, Function.comp]
  constructor
  · rintro ⟨⟨i, a⟩, hmem, rfl⟩
    have h := List.mk_mem_enum_iff_getElem?.mp hmem
    have hi : i < l.length := by
      by_contra hge
      rw [List.getElem?_eq_none (Nat.le_of_not_lt hge)] at h
      cases h
    exact ⟨i, hi, rfl⟩
  · rintro ⟨i, hi, rfl⟩
    refine ⟨(i, l.get ⟨i, hi⟩), ?_, rfl⟩
    exact List.mk_mem_enum_iff_getElem?.mpr (by simp [List.getElem?_eq_getElem hi])

theorem optStep_keys_nodup (o : Option String) (s : SubObject) (mk : String → MonCmd) :
    ((optStep o s mk).map Prod.fst).Nodup := by
  rcases o with _ | a <;> simp [optStep]

theorem fdStep_keys_nodup (b : Bool) (c : MonCmd) :
    (((if b then [(SubObject.fdpass, c)] else []).map Prod.fst)).Nodup := by
  rcases b with _ | _ <;> simp

theorem enumStep_keys_nodup (l : List String) (mk : String → MonCmd) :
    (((l.enum.map (fun p => (SubObject.encryptsecret p.1, mk p.2))).map Prod.fst)).Nodup := by
  have h : ((l.enum.map (fun p => (SubObject.encryptsecret p.1, mk p.2))).map Prod.fst)
      = (l.enum.map Prod.fst).map SubObject.encryptsecret := by
    simp only [List.map_map]
    rfl
  rw [h, List.enum_map_fst]
  exact List.Nodup.map (fun a b hab => SubObject.encryptsecret.inj hab)
    (List.nodup_range _)

theorem mem_optStep (o : Option String) (s : SubObject) (mk : String → MonCmd)
    (sc : SubObject × MonCmd) :
    sc ∈ optStep o s mk ↔ ∃ a, o = some a ∧ sc = (s, mk a) := by
  rcases o with _ | a <;> simp [optStep]

theorem enum_keys_nodup_comp (l : List String) (mk : String → MonCmd) :
    (List.map (Prod.fst ∘ fun p => (SubObject.encryptsecret p.1, mk p.2)) l.enum).Nodup := by
  have h := enumStep_keys_nodup l mk
  simpa [List.map_map] using h

/-- Each sub-object occurs at most once among the creation steps. -/
theorem applySteps_keys_nodup (d : AttachData) :
    ((attachApplySteps d).map Prod.fst).Nodup := by
  unfold attachApplySteps
  simp [List.nodup_append, List.disjoint_left, mem_optStep_key, mem_fdStep_key,
    mem_enumStep_key, optStep_keys_nodup, fdStep_keys_nodup, enumStep_keys_nodup,
    mem_optStep]
  repeat' first
    | exact enum_keys_nodup_comp _ _
    | constructor
  all_goals intros
  all_goals subst_vars
  all_goals simp_all

theorem filterMap_none_of_att (att : SubObject → Bool) (f : MonCmd → MonCmd)
    (steps : List (SubObject × MonCmd)) (h : ∀ sc ∈ steps, att sc.1 = false) :
    steps.filterMap (fun sc => if att sc.1 then some (f sc.2) else none) = [] := by
  induction steps with
  | nil => rfl
  | cons sc rest ih =>
    have hsc := h sc (List.mem_cons_self sc rest)
    simp only [List.filterMap_cons, hsc, Bool.false_eq_true, reduceIte]
    exact ih (fun x hx => h x (List.mem_cons_of_mem _ hx))

/-- Filtering the creation steps through the attached flags produced by the
apply run recovers exactly the created steps, in order. -/
theorem applyGo_filterMap (ok : MonCmd → Bool) (f : MonCmd → MonCmd)
    (steps : List (SubObject × MonCmd)) :
    ∀ (att : SubObject → Bool),
      ((steps.map Prod.fst).Nodup) →
      (∀ sc ∈ steps, (att sc.1 = true ↔ ∃ c, (sc.1, c) ∈ (attachApplyGo ok steps).2.1)) →
      steps.filterMap (fun sc => if att sc.1 then some (f sc.2) else none)
        = ((attachApplyGo ok steps).2.1).map (fun sc => f sc.2) := by
  induction steps with
  | nil => intro att _ _; rfl
  | cons sc rest ih =>
    rcases sc with ⟨s, c⟩
    intro att hnd hatt
    by_cases h : ok c = true
    · have hdone : (attachApplyGo ok ((s, c) :: rest)).2.1
          = (s, c) :: (attachApplyGo ok rest).2.1 := by
        simp only [attachApplyGo]
        rw [if_pos h]
      have hs : att s = true := by
        rw [hatt (s, c) (List.mem_cons_self _ _)]
        exact ⟨c, by rw [hdone]; exact List.mem_cons_self _ _⟩
      have hsnot : s ∉ rest.map Prod.fst := by
        have h' := hnd
        simp only [List.map_cons, List.nodup_cons] at h'
        exact h'.1
      have hrest : ∀ sc ∈ rest,
          (att sc.1 = true ↔ ∃ c', (sc.1, c') ∈ (attachApplyGo ok rest).2.1) := by
        intro sc hmem
        rw [hatt sc (List.mem_cons_of_mem _ hmem), hdone]
        have hne : sc.1 ≠ s := by
          intro heq
          exact hsnot (heq ▸ List.mem_map_of_mem Prod.fst hmem)
        constructor
        · rintro ⟨c', hc'⟩
          rcases List.mem_cons.mp hc' with heq | hmem'
          · exact absurd (congrArg Prod.fst heq) (by simpa using hne)
          · exact ⟨c', hmem'⟩
        · rintro ⟨c', hc'⟩
          exact ⟨c', List.mem_cons_of_mem _ hc'⟩
      rw [List.filterMap_cons]
      simp only [hs, reduceIte]
      rw [hdone, List.map_cons]
      congr 1
      exact ih att (by simpa using (List.nodup_cons.mp (by simpa using hnd)).2) hrest
    · have hdone : (attachApplyGo ok ((s, c) :: rest)).2.1 = [] := by
        simp only [attachApplyGo]
        rw [if_neg h]
      have hfalse : ∀ sc ∈ (s, c) :: rest, att sc.1 = false := by
        intro sc hmem
        have hiff := hatt sc hmem
        rw [hdone] at hiff
        rcases hv : att sc.1 with _ | _
        · rfl
        · rcases hiff.mp hv with ⟨c', hc'⟩
          cases hc'
      rw [hdone, filterMap_none_of_att att f _ hfalse]
      rfl

/-- Rollback tears down exactly the created sub-objects: one teardown per
flagged sub-object and none for unflagged ones. -/
theorem attachRollback_perm_done (d : AttachData) (ok : MonCmd → Bool) :
    (qemuBlockStorageSourceAttachRollback d
        (attachedAfter (attachApplyDone ok d))).Perm
      ((attachApplyDone ok d).map (fun sc => teardownCmd sc.2)) := by
  have hatt : ∀ sc ∈ attachApplySteps d,
      (attachedAfter (attachApplyDone ok d) sc.1 = true ↔
        ∃ c, (sc.1, c) ∈ (attachApplyGo ok (attachApplySteps d)).2.1) :=
    fun sc _ => attachedAfter_iff _ _
  have hmain := applyGo_filterMap ok teardownCmd (attachApplySteps d)
    (attachedAfter (attachApplyDone ok d)) (applySteps_keys_nodup d) hatt
  have hperm := List.Perm.filterMap
    (fun sc => if attachedAfter (attachApplyDone ok d) sc.1 then some sc.2 else none)
    (rollbackSteps_perm d)
  unfold qemuBlockStorageSourceAttachRollback
  refine hperm.trans ?_
  rw [List.filterMap_map]
  have hcomp : ((fun sc => if attachedAfter (attachApplyDone ok d) sc.1
          then some sc.2 else none)
        ∘ (fun (sc : SubObject × MonCmd) => (sc.1, teardownCmd sc.2)))
      = (fun sc => if attachedAfter (attachApplyDone ok d) sc.1
          then some (teardownCmd sc.2) else none) := rfl
  rw [hcomp, hmain]
  exact List.Perm.refl _

theorem filter_emit_filterMap (att : SubObject → Bool)
    (emit : SubObject × MonCmd → MonCmd) (p : MonCmd → Bool)
    (l : List (SubObject × MonCmd)) :
    (l.filterMap (fun sc => if att sc.1 then some (emit sc) else none)).filter p
      = l.filterMap (fun sc => if att sc.1 then
          (if p (emit sc) then some (emit sc) else none) else none) := by
  induction l with
  | nil => rfl
  | cons sc rest ih =>
    rcases hv : att sc.1 with _ | _ <;> rcases hp : p (emit sc) with _ | _ <;>
      simp [List.filterMap_cons, hv, hp, List.filter_cons, ih]

/-- Canonical form of a node-teardown segment: one guarded command. -/
def nodeSeg (o : Option String) (s : SubObject) (att : SubObject → Bool)
    (v : String → MonCmd) : List MonCmd :=
  match o with
  | some a => if att s then [v a] else []
  | none => []

theorem nodeSeg_reverse (o : Option String) (s : SubObject)
    (att : SubObject → Bool) (v : String → MonCmd) :
    (nodeSeg o s att v).reverse = nodeSeg o s att v := by
  rcases o with _ | a
  · rfl
  · rcases hv : att s with _ | _ <;> simp [nodeSeg, hv]

theorem g2_blockdevDel (att : SubObject → Bool) (o : Option String)
    (s : SubObject) :
    (optStep o s MonCmd.blockdevDel).filterMap
        (fun sc => if att sc.1 then
          (if isNodeTeardown sc.2 then some sc.2 else none) else none)
      = nodeSeg o s att MonCmd.blockdevDel := by
  rcases o with _ | a
  · rfl
  · rcases hv : att s with _ | _ <;> simp [optStep, nodeSeg, isNodeTeardown, hv]

theorem g2_detachCharDev (att : SubObject → Bool) (o : Option String)
    (s : SubObject) :
    (optStep o s MonCmd.detachCharDev).filterMap
        (fun sc => if att sc.1 then
          (if isNodeTeardown sc.2 then some sc.2 else none) else none)
      = nodeSeg o s att MonCmd.detachCharDev := by
  rcases o with _ | a
  · rfl
  · rcases hv : att s with _ | _ <;> simp [optStep, nodeSeg, isNodeTeardown, hv]

theorem g2_delObject (att : SubObject → Bool) (o : Option String)
    (s : SubObject) :
    (optStep o s MonCmd.delObject).filterMap
        (fun sc => if att sc.1 then
          (if isNodeTeardown sc.2 then some sc.2 else none) else none)
      = [] := by
  rcases o with _ | a
  · rfl
  · rcases hv : att s with _ | _ <;> simp [optStep, isNodeTeardown, hv]

theorem g2_removeFD (att : SubObject → Bool) (b : Bool) :
    ((if b then [(SubObject.fdpass, MonCmd.removeFD)] else [])
        : List (SubObject × MonCmd)).filterMap
        (fun sc => if att sc.1 then
          (if isNodeTeardown sc.2 then some sc.2 else none) else none)
      = [] := by
  rcases b with _ | _
  · rfl
  · rcases hv : att SubObject.fdpass with _ | _ <;> simp [isNodeTeardown, hv]

theorem g2_enumDel (att : SubObject → Bool) (l : List String) :
    ((l.enum.map
        (fun p => (SubObject.encryptsecret p.1, MonCmd.delObject p.2)))).filterMap
        (fun sc => if att sc.1 then
          (if isNodeTeardown sc.2 then some sc.2 else none) else none)
      = [] := by
  rw [List.filterMap_map, List.filterMap_eq_nil_iff]
  intro q _
  rcases hv : att (SubObject.encryptsecret q.1) with _ | _ <;>
    simp [Function.comp, isNodeTeardown, hv]

theorem g2td_blockdevAdd (att : SubObject → Bool) (o : Option String)
    (s : SubObject) :
    (optStep o s MonCmd.blockdevAdd).filterMap
        (fun sc => if att sc.1 then
          (if isNodeTeardown (teardownCmd sc.2) then
            some (teardownCmd sc.2) else none) else none)
      = nodeSeg o s att MonCmd.blockdevDel := by
  rcases o with _ | a
  · rfl
  · rcases hv : att s with _ | _ <;>
      simp [optStep, nodeSeg, isNodeTeardown, teardownCmd, hv]

theorem g2td_attachCharDev (att : SubObject → Bool) (o : Option String)
    (s : SubObject) :
    (optStep o s MonCmd.attachCharDev).filterMap
        (fun sc => if att sc.1 then
          (if isNodeTeardown (teardownCmd sc.2) then
            some (teardownCmd sc.2) else none) else none)
      = nodeSeg o s att MonCmd.detachCharDev := by
  rcases o with _ | a
  · rfl
  · rcases hv : att s with _ | _ <;>
      simp [optStep, nodeSeg, isNodeTeardown, teardownCmd, hv]

theorem g2td_addObject (att : SubObject → Bool) (o : Option String)
    (s : SubObject) :
    (optStep o s MonCmd.addObject).filterMap
        (fun sc => if att sc.1 then
          (if isNodeTeardown (teardownCmd sc.2) then
            some (teardownCmd sc.2) else none) else none)
      = [] := by
  rcases o with _ | a
  · rfl
  · rcases hv : att s with _ | _ <;>
      simp [optStep, isNodeTeardown, teardownCmd, hv]

theorem g2td_transferFD (att : SubObject → Bool) (b : Bool) :
    ((if b then [(SubObject.fdpass, MonCmd.transferFD)] else [])
        : List (SubObject × MonCmd)).filterMap
        (fun sc => if att sc.1 then
          (if isNodeTeardown (teardownCmd sc.2) then
            some (teardownCmd sc.2) else none) else none)
      = [] := by
  rcases b with _ | _
  · rfl
  · rcases hv : att SubObject.fdpass with _ | _ <;>
      simp [isNodeTeardown, teardownCmd, hv]

theorem g2td_enumAdd (att : SubObject → Bool) (l : List String) :
    ((l.enum.map
        (fun p => (SubObject.encryptsecret p.1, MonCmd.addObject p.2)))).filterMap
        (fun sc => if att sc.1 then
          (if isNodeTeardown (teardownCmd sc.2) then
            some (teardownCmd sc.2) else none) else none)
      = [] := by
  rw [List.filterMap_map, List.filterMap_eq_nil_iff]
  intro q _
  rcases hv : att (SubObject.encryptsecret q.1) with _ | _ <;>
    simp [Function.comp, isNodeTeardown, teardownCmd, hv]

/-- The blockdev nodes and the chardev are torn down in the exact reverse
of their creation order. -/
theorem attachRollback_node_order (d : AttachData) (ok : MonCmd → Bool) :
    (qemuBlockStorageSourceAttachRollback d
        (attachedAfter (attachApplyDone ok d))).filter isNodeTeardown
      = (((attachApplyDone ok d).map (fun sc => teardownCmd sc.2)).filter
          isNodeTeardown).reverse := by
  have hatt : ∀ sc ∈ attachApplySteps d,
      (attachedAfter (attachApplyDone ok d) sc.1 = true ↔
        ∃ c, (sc.1, c) ∈ (attachApplyGo ok (attachApplySteps d)).2.1) :=
    fun sc _ => attachedAfter_iff _ _
  have hmain := applyGo_filterMap ok teardownCmd (attachApplySteps d)
    (attachedAfter (attachApplyDone ok d)) (applySteps_keys_nodup d) hatt
  rw [show ((attachApplyGo ok (attachApplySteps d)).2.1).map
      (fun sc => teardownCmd sc.2)
      = (attachApplyDone ok d).map (fun sc => teardownCmd sc.2) from rfl] at hmain
  rw [← hmain]
  unfold qemuBlockStorageSourceAttachRollback
  have h1 := filter_emit_filterMap (attachedAfter (attachApplyDone ok d)) Prod.snd
    isNodeTeardown (attachRollbackSteps d)
  have h2 := filter_emit_filterMap (attachedAfter (attachApplyDone ok d))
    (fun sc => teardownCmd sc.2) isNodeTeardown (attachApplySteps d)
  simp only [] at h1 h2
  rw [h1, h2]
  unfold attachRollbackSteps attachApplySteps
  have e1 := fun o s => g2_blockdevDel (attachedAfter (attachApplyDone ok d)) o s
  have e2 := fun o s => g2_detachCharDev (attachedAfter (attachApplyDone ok d)) o s
  have e3 := fun o s => g2_delObject (attachedAfter (attachApplyDone ok d)) o s
  have e4 := fun b => g2_removeFD (attachedAfter (attachApplyDone ok d)) b
  have e5 := fun l => g2_enumDel (attachedAfter (attachApplyDone ok d)) l
  have f1 := fun o s => g2td_blockdevAdd (attachedAfter (attachApplyDone ok d)) o s
  have f2 := fun o s => g2td_attachCharDev (attachedAfter (attachApplyDone ok d)) o s
  have f3 := fun o s => g2td_addObject (attachedAfter (attachApplyDone ok d)) o s
  have f4 := fun b => g2td_transferFD (attachedAfter (attachApplyDone ok d)) b
  have f5 := fun l => g2td_enumAdd (attachedAfter (attachApplyDone ok d)) l
  simp only [List.filterMap_append, e1, e2, e3, e4, e5, f1, f2, f3, f4, f5,
    List.append_nil, List.nil_append, List.reverse_append, nodeSeg_reverse,
    List.reverse_nil, List.append_assoc]

/-- C1: `qemuBlockStorageSourceAttachApply` issues the creation commands in a
fixed order and stops at the first failure, so the created sub-objects form a
front segment of the step list; `qemuBlockStorageSourceAttachRollback` then
tears down exactly those created sub-objects, one teardown each, with the
blockdev nodes and the chardev removed in the exact reverse of their creation
order — but the dependency objects (PR manager, secrets, TLS objects, FD) are
torn down in a fixed order that is not the global reverse of creation, so
rollback as a whole is a permutation, not the reversal, of the teardowns. -/
theorem c1_attach_rollback_transaction (d : AttachData) (ok : MonCmd → Bool) :
    (∃ rest, attachApplySteps d = attachApplyDone ok d ++ rest)
    ∧ (qemuBlockStorageSourceAttachRollback d
        (attachedAfter (attachApplyDone ok d))).Perm
        ((attachApplyDone ok d).map (fun sc => teardownCmd sc.2))
    ∧ (qemuBlockStorageSourceAttachRollback d
        (attachedAfter (attachApplyDone ok d))).filter isNodeTeardown
      = (((attachApplyDone ok d).map (fun sc => teardownCmd sc.2)).filter
          isNodeTeardown).reverse :=
  ⟨attachApplyGo_front ok (attachApplySteps d),
   attachRollback_perm_done d ok,
   attachRollback_node_order d ok⟩
